import Mathlib

/-!
Snake entity of `src/snake.cpp`.

A shallow embedding of the snake entity (turn / move / grow / collision
predicates / reset / text codec) together with the properties stated about it.

Conventions of the embedding

* `uint32_t length` is a `Nat` kept below `4294967296`; every arithmetic step
  on it is written with an explicit `% 4294967296`.
* Coordinates are C++ `int`s, held in `Int` fields (`Vector2Int` is declared
  outside the translated file). The steps `+= 1` and `-= 1` of `move` are
  taken modulo `2^32` into the `int` range (`wrapInt`): the two's-complement
  result of the compiled code where C++ leaves signed overflow undefined.
  `std::stoi` checks the `int` range itself.
* Behaviour that C++ leaves undefined (indexing a `std::vector` out of bounds,
  `front()` / `back()` of an empty vector) and exceptions thrown by `std::stoi`
  are results of type `Fault`.
-/

namespace SnakeSpec

/-! ## Data model -/

/-- Modelled from the spec: the declaration of `Vector2Int` is not part of
`snake.cpp`. Section 3 describes it as "two integers (x, y)", a value type
compared by structural equality. -/
structure Vector2Int where
  x : Int
  y : Int
  deriving DecidableEq, Repr

/-- The value of an arithmetic result as a C++ `int`: the integer congruent to
`z` modulo `2^32` that lies in `-2147483648 .. 2147483647`. A result inside
that range is kept; a result outside it is the two's-complement wrap-around. -/
def wrapInt (z : Int) : Int := (z + 2147483648) % 4294967296 - 2147483648

/-- Modelled from the spec: the enumeration `Direction` is declared outside
`snake.cpp`. It is a closed enumeration `UP, DOWN, LEFT, RIGHT, NONE` with
ordinals 0 to 4. A value of the enumeration is represented by its ordinal,
because `operator>>` stores `static_cast<Direction>(std::stoi(..))` unchecked. -/
abbrev Direction := Int

/-- Modelled from the spec: ordinal of `UP`. -/
def UP : Direction := 0
/-- Modelled from the spec: ordinal of `DOWN`. -/
def DOWN : Direction := 1
/-- Modelled from the spec: ordinal of `LEFT`. -/
def LEFT : Direction := 2
/-- Modelled from the spec: ordinal of `RIGHT`. -/
def RIGHT : Direction := 3
/-- Modelled from the spec: ordinal of `NONE`. -/
def NONE : Direction := 4

/-- The display colour type of the rendering library (four 8-bit channels). -/
structure Color where
  r : Nat
  g : Nat
  b : Nat
  a : Nat
  deriving DecidableEq, Repr

/-- The rendering library's `GREEN`. -/
def GREEN : Color := ⟨0, 228, 48, 255⟩
/-- The rendering library's `DARKGREEN`. -/
def DARKGREEN : Color := ⟨0, 117, 44, 255⟩

/-- Ways in which an operation fails to produce a result. -/
inductive Fault where
  /-- Undefined behaviour: out-of-bounds `operator[]`, `front()` or `back()`
  of an empty vector. -/
  | undefined
  /-- The exception `std::invalid_argument` of `std::stoi`. -/
  | invalid_argument
  /-- The exception `std::out_of_range` of `std::stoi`. -/
  | out_of_range
  deriving DecidableEq, Repr

deriving instance DecidableEq for Except

/-- The member variables of `class Snake`. The class is declared outside the
translated file; `length` is a `uint32_t`, like the parameter of the
constructor and of `reset` that initialises it and like the loop counters that
are compared with it. -/
structure Snake where
  body_color : Color
  tail_color : Color
  /-- A `uint32_t`: a natural number below `4294967296`. -/
  length : Nat
  position : Vector2Int
  direction : Direction
  body : List Vector2Int
  deriving DecidableEq, Repr

namespace Snake

/-! ## Construction and reset -/

/-- The five-argument constructor `Snake::Snake(length, position, direction,
body_color, tail_color)`. The argument is converted to `uint32_t` at the call. -/
def construct (length : Nat) (position : Vector2Int) (direction : Direction)
    (body_color tail_color : Color) : Snake :=
  { body_color := body_color
    tail_color := tail_color
    length := length % 4294967296
    position := position
    direction := direction
    body := List.replicate (length % 4294967296) position }

/-- The default constructor `Snake::Snake()`. -/
def default : Snake := construct 0 ⟨10, 10⟩ RIGHT GREEN DARKGREEN

/-- The method `Snake::reset(length, position, direction)`. -/
def reset (s : Snake) (length : Nat) (position : Vector2Int) (direction : Direction) : Snake :=
  let s1 := { s with length := length % 4294967296 }
  let s2 := { s1 with position := position }
  let s3 := { s2 with direction := direction }
  -- body.clear(); body.resize(length, position);
  let cleared : List Vector2Int := []
  { s3 with body := cleared ++ List.replicate (s3.length - cleared.length) position }

/-! ## Direction change -/

/-- The method `Snake::turn(new_direction)`. -/
def turn (s : Snake) (new_direction : Direction) : Snake :=
  if new_direction = NONE then s
  else if Int.shiftRight (Int.xor new_direction s.direction) 1 = 0 then s
  else { s with direction := new_direction }

/-! ## Movement -/

/-- The loop `for (uint32_t i = start; i > 0; i--) body[i] = body[i - 1];`
of `Snake::move`, started at `i`. -/
def moveShift : Nat → List Vector2Int → Except Fault (List Vector2Int)
  | 0, body => Except.ok body
  | i + 1, body =>
    match body[i]?, decide (i + 1 < body.length) with
    | some prev, true => moveShift i (body.set (i + 1) prev)
    | _, _ => Except.error Fault.undefined

/-- The `switch (direction)` of `Snake::move`; the coordinate that is stepped
is an `int`. -/
def movePosition (direction : Direction) (position : Vector2Int) : Vector2Int :=
  if direction = UP then { position with y := wrapInt (position.y - 1) }
  else if direction = DOWN then { position with y := wrapInt (position.y + 1) }
  else if direction = LEFT then { position with x := wrapInt (position.x - 1) }
  else if direction = RIGHT then { position with x := wrapInt (position.x + 1) }
  else position

/-- The method `Snake::move()`. -/
def move (s : Snake) : Except Fault Snake :=
  let position := movePosition s.direction s.position
  -- uint32_t i = length - 1 (subtracting 1 modulo 2^32 is adding 2^32 - 1)
  match moveShift ((4294967295 + s.length) % 4294967296) s.body with
  | Except.error e => Except.error e
  | Except.ok body =>
    -- body[0] = position
    if 0 < body.length then Except.ok { s with position := position, body := body.set 0 position }
    else Except.error Fault.undefined

/-! ## Growth -/

/-- The method `Snake::grow()`. -/
def grow (s : Snake) : Except Fault Snake :=
  let length := (s.length + 1) % 4294967296
  match s.body.getLast? with
  | none => Except.error Fault.undefined
  | some last => Except.ok { s with length := length, body := s.body ++ [Vector2Int.mk last.x last.y] }

/-! ## Collision predicates -/

/-- The `while (it != body.end())` loop of `Snake::hasCollidedWithItself`;
`it` is the iterator's offset from `body.begin()` and the list argument holds
the cells from the iterator to the end. -/
def selfScan (body : List Vector2Int) : Nat → List Vector2Int → Bool
  | _, [] => false
  | it, cell :: rest =>
    if it ≠ 0 ∧ some cell = body.head? then true
    else selfScan body (it + 1) rest

/-- The method `Snake::hasCollidedWithItself()`. -/
def hasCollidedWithItself (s : Snake) : Bool :=
  selfScan s.body 0 s.body

/-- The `while (it != other->body.end())` loop of `Snake::hasCollidedWithSnake`;
`front` is `body.front()` of the receiver, absent when its body is empty. -/
def otherScan (front : Option Vector2Int) : List Vector2Int → Except Fault Bool
  | [] => Except.ok false
  | cell :: rest =>
    match front with
    | none => Except.error Fault.undefined
    | some f => if cell = f then Except.ok true else otherScan front rest

/-- The method `Snake::hasCollidedWithSnake(other)`. -/
def hasCollidedWithSnake (s other : Snake) : Except Fault Bool :=
  otherScan s.body.head? other.body

/-! ## Text streams -/

end Snake

/-- The part of a `std::istream` / `std::istringstream` that the codec
observes: the whole character sequence, the characters from the get position
to the end, and the state bits `eofbit` and `failbit`. -/
structure IStream where
  content : List Char
  rest : List Char
  eofbit : Bool
  failbit : Bool
  deriving DecidableEq, Repr

namespace IStream

/-- A freshly constructed `std::istringstream(text)`. -/
def ofText (text : List Char) : IStream := ⟨text, text, false, false⟩

/-- Character extraction of `std::getline`: the characters before the first
`delim`, and the characters after it when a delimiter was found. -/
def extractUntil (delim : Char) : List Char → List Char × Option (List Char)
  | [] => ([], none)
  | c :: cs =>
    if c = delim then ([], some cs)
    else ((c :: (extractUntil delim cs).1), (extractUntil delim cs).2)

/-- The call `std::getline(st, line, delim)`: the new stream state and the new
value of `line`. A stream that is not `good()` gets `failbit` and leaves `line`
as it was; otherwise `line` is replaced by the extracted characters, reaching
the end sets `eofbit`, and extracting nothing sets `failbit`. -/
def getline (st : IStream) (line : List Char) (delim : Char) : IStream × List Char :=
  if st.eofbit || st.failbit then ({ st with failbit := true }, line)
  else
    match extractUntil delim st.rest with
    | (l, some r) => ({ st with rest := r }, l)
    | (l, none) => ({ st with rest := [], eofbit := true, failbit := l.isEmpty }, l)

/-- The call `st.seekg(pos)`: clears `eofbit`, then repositions unless the
stream has failed; a position past the end sets `failbit`. -/
def seekg (st : IStream) (pos : Nat) : IStream :=
  let st1 := { st with eofbit := false }
  if st1.failbit then st1
  else if pos ≤ st1.content.length then { st1 with rest := st1.content.drop pos }
  else { st1 with failbit := true }

end IStream

/-- The C library's `isspace` in the "C" locale. -/
def isspace (c : Char) : Bool :=
  c = ' ' || c = '\t' || c = '\n' || c = Char.ofNat 11 || c = Char.ofNat 12 || c = '\r'

/-- Value of a sequence of decimal digits. -/
def digitsValue (ds : List Char) : Nat :=
  ds.foldl (fun acc c => acc * 10 + (c.toNat - 48)) 0

/-- The call `std::stoi(str)` (base 10): leading white space is skipped, an
optional sign is read, then the longest run of decimal digits; no digit throws
`std::invalid_argument`, a value outside the range of `int` throws
`std::out_of_range`; characters after the digits are ignored. -/
def stoi (str : List Char) : Except Fault Int :=
  let s := str.dropWhile isspace
  let neg : Bool := decide (s.head? = some '-')
  let t : List Char := if s.head? = some '-' ∨ s.head? = some '+' then s.tail else s
  let ds := t.takeWhile Char.isDigit
  if ds = [] then Except.error Fault.invalid_argument
  else
    let v : Int := if neg then -(digitsValue ds : Int) else (digitsValue ds : Int)
    if v < -2147483648 ∨ 2147483647 < v then Except.error Fault.out_of_range
    else Except.ok v

/-- Decimal text that `operator<<` writes for an integer value. -/
def decimal : Int → List Char
  | Int.ofNat n => Nat.toDigits 10 n
  | Int.negSucc n => '-' :: Nat.toDigits 10 (n + 1)

namespace Snake

/-! ## Serialization -/

/-- The stream insertion `operator<<(os, snake)`; `os` is the text already
written to the output stream, the result is the text after the call. -/
def serialize (os : List Char) (snake : Snake) : List Char :=
  -- os << "L:" << snake.length << ",D:" << snake.direction << std::endl;
  let os1 := os ++ "L:".toList ++ decimal (Int.ofNat snake.length) ++ ",D:".toList
    ++ decimal snake.direction ++ ['\n']
  -- os << "B" << std::endl;
  let os2 := os1 ++ "B".toList ++ ['\n']
  -- for (auto &&cell : snake.body) os << " b:" << cell.x << "," << cell.y << std::endl;
  snake.body.foldl
    (fun o cell => o ++ " b:".toList ++ decimal cell.x ++ ",".toList ++ decimal cell.y ++ ['\n'])
    os2

/-! ## Deserialization -/

/-- The loop `while (std::getline(ss, line, ':'))` of `operator>>`, which reads
the keys `L` and `D` of the header line. The first argument bounds the number
of iterations; every iteration that continues extracts at least one character,
so the number of unread characters plus one is enough. The result is the
entity and the final value of the variable `line`. -/
def readHeader : Nat → IStream → List Char → Snake → Except Fault (Snake × List Char)
  | 0, _, line, snake => Except.ok (snake, line)
  | fuel + 1, ss, line, snake =>
    let r1 := IStream.getline ss line ':'
    if r1.1.failbit then Except.ok (snake, r1.2)
    else if r1.2 = "L".toList then
      let r2 := IStream.getline r1.1 r1.2 ','
      match stoi r2.2 with
      | Except.error e => Except.error e
      | Except.ok v =>
        -- snake.length = std::stoi(line): conversion of int to uint32_t
        readHeader fuel r2.1 r2.2 { snake with length := (v % 4294967296).toNat }
    else if r1.2 = "D".toList then
      let r2 := IStream.getline r1.1 r1.2 ','
      match stoi r2.2 with
      | Except.error e => Except.error e
      | Except.ok v => readHeader fuel r2.1 r2.2 { snake with direction := v }
    else readHeader fuel r1.1 r1.2 snake

/-- The loop `for (uint32_t i = 0; i < snake.length; ++i)` of `operator>>` with
`n` iterations left: the stream `is`, the variable `line` and the body read so
far. -/
def readBody : Nat → IStream → List Char → List Vector2Int
    → Except Fault (IStream × List Vector2Int)
  | 0, is, _, body => Except.ok (is, body)
  | n + 1, is, line, body =>
    let r1 := IStream.getline is line '\n'
    -- ss = std::istringstream(line); ss.seekg(3);
    let ss := IStream.seekg (IStream.ofText r1.2) 3
    let tx := IStream.getline ss [] ','
    match stoi tx.2 with
    | Except.error e => Except.error e
    | Except.ok x =>
      let ty := IStream.getline tx.1 tx.2 ','
      match stoi ty.2 with
      | Except.error e => Except.error e
      | Except.ok y => readBody n r1.1 r1.2 (body ++ [Vector2Int.mk x y])

/-- The stream extraction `operator>>(is, snake)`: the stream and the entity
after the call. -/
def deserialize (is : IStream) (snake : Snake) : Except Fault (IStream × Snake) :=
  let r1 := IStream.getline is [] '\n'
  let ss := IStream.ofText r1.2
  match readHeader (ss.rest.length + 1) ss r1.2 snake with
  | Except.error e => Except.error e
  | Except.ok (snake1, line1) =>
    -- std::getline(is, line); snake.body.clear();
    let r2 := IStream.getline r1.1 line1 '\n'
    let snake2 := { snake1 with body := [] }
    match readBody snake2.length r2.1 r2.2 snake2.body with
    | Except.error e => Except.error e
    | Except.ok (is3, body) =>
      -- snake.position = snake.body.front();
      match body.head? with
      | none => Except.error Fault.undefined
      | some front => Except.ok (is3, { snake2 with body := body, position := front })

end Snake

/-! ## Definitions used to state the properties -/

/-- Claim-side: the direction opposite to `d` on the same axis. -/
def specOpposite (d : Direction) : Direction :=
  if d = UP then DOWN else if d = DOWN then UP
  else if d = LEFT then RIGHT else if d = RIGHT then LEFT else d

/-- Claim-side: the unit step of a direction. -/
def specUnitDelta (d : Direction) : Vector2Int :=
  if d = UP then ⟨0, -1⟩ else if d = DOWN then ⟨0, 1⟩
  else if d = LEFT then ⟨-1, 0⟩ else if d = RIGHT then ⟨1, 0⟩ else ⟨0, 0⟩

/-- The three entity invariants: `body.size() == length`, `body[0] == position`
and `length >= 1`. -/
def Inv (s : Snake) : Prop :=
  s.body.length = s.length ∧ s.body[0]? = some s.position ∧ 1 ≤ s.length

instance (s : Snake) : Decidable (Inv s) := by unfold Inv; infer_instance

/-- One call of `turn`, `move` or `grow`. -/
inductive Op where
  | turn (r : Direction)
  | move
  | grow
  deriving DecidableEq, Repr

/-- The effect of one call on the entity. -/
def applyOp (s : Snake) : Op → Except Fault Snake
  | Op.turn r => Except.ok (Snake.turn s r)
  | Op.move => Snake.move s
  | Op.grow => Snake.grow s

/-- The effect of a sequence of calls, in order; the first fault stops it. -/
def applyOps : List Op → Snake → Except Fault Snake
  | [], s => Except.ok s
  | op :: ops, s =>
    match applyOp s op with
    | Except.error e => Except.error e
    | Except.ok s1 => applyOps ops s1

/-- Number of `grow` calls in a sequence. -/
def countGrow : List Op → Nat
  | [] => 0
  | Op.grow :: ops => countGrow ops + 1
  | _ :: ops => countGrow ops

/-- Both coordinates of a cell lie in the range of `int`. -/
def inIntRange (c : Vector2Int) : Prop :=
  (-2147483648 ≤ c.x ∧ c.x ≤ 2147483647) ∧ (-2147483648 ≤ c.y ∧ c.y ≤ 2147483647)

instance (c : Vector2Int) : Decidable (inIntRange c) := by unfold inIntRange; infer_instance

/-- A character of a decimal text is a digit or the minus sign. -/
def isDecimalChar (c : Char) : Bool := c.isDigit || c = '-'

/-- Claim-side: the header line `L:<length>,D:<direction>` without its newline. -/
def specHeader (N : Nat) (d : Int) : List Char :=
  ['L', ':'] ++ decimal (Int.ofNat N) ++ [',', 'D', ':'] ++ decimal d

/-- Claim-side: one body line ` b:<x>,<y>` without its newline. -/
def specBodyLine (c : Vector2Int) : List Char :=
  [' ', 'b', ':'] ++ decimal c.x ++ [','] ++ decimal c.y

/-- Claim-side: the body lines of the given coordinates in order, each followed
by a newline. -/
def specBodyLines : List Vector2Int → List Char
  | [] => []
  | c :: cs => specBodyLine c ++ '\n' :: specBodyLines cs

/-- Claim-side: the whole text: header line, the line `B`, the body lines. -/
def specText (N : Nat) (d : Int) (cs : List Vector2Int) : List Char :=
  specHeader N d ++ '\n' :: 'B' :: '\n' :: specBodyLines cs

/-! ### Concrete entities of the scenarios -/

/-- Scenario 1: constructed with length 3 at (10,10) heading `RIGHT`. -/
def scenarioSnake : Snake := Snake.construct 3 ⟨10, 10⟩ RIGHT GREEN DARKGREEN

/-- Scenario 1 after `move()`; also the start of scenarios 2 and 3. -/
def scenarioMoved : Snake :=
  ⟨GREEN, DARKGREEN, 3, ⟨11, 10⟩, RIGHT, [⟨11, 10⟩, ⟨10, 10⟩, ⟨10, 10⟩]⟩

/-- Scenario 4: length 2, direction `UP`, body [(5,5),(5,6)]. -/
def scenarioSaved : Snake := ⟨GREEN, DARKGREEN, 2, ⟨5, 5⟩, UP, [⟨5, 5⟩, ⟨5, 6⟩]⟩

/-- Scenario 5: body [(7,7),(6,7),(7,7)], whose index 2 equals the head. -/
def scenarioCollided : Snake := ⟨GREEN, DARKGREEN, 3, ⟨7, 7⟩, UP, [⟨7, 7⟩, ⟨6, 7⟩, ⟨7, 7⟩]⟩

/-- Scenario 5: body [(7,7),(6,7),(5,7)]. -/
def scenarioClear : Snake := ⟨GREEN, DARKGREEN, 3, ⟨7, 7⟩, LEFT, [⟨7, 7⟩, ⟨6, 7⟩, ⟨5, 7⟩]⟩

/-- Scenario 6: entity `A` with head (4,4). -/
def scenarioA : Snake := ⟨GREEN, DARKGREEN, 2, ⟨4, 4⟩, UP, [⟨4, 4⟩, ⟨4, 5⟩]⟩

/-- Scenario 6: entity `B` whose body contains (4,4) at index 1. -/
def scenarioB : Snake := ⟨GREEN, DARKGREEN, 3, ⟨3, 4⟩, LEFT, [⟨3, 4⟩, ⟨4, 4⟩, ⟨5, 4⟩]⟩

/-- Cells of three body lines, one with a negative coordinate. -/
def scenarioLines : List Vector2Int := [⟨5, 5⟩, ⟨-5, 6⟩, ⟨9, 9⟩]

/-- One segment at (2147483647,0), the largest `int` abscissa, heading `RIGHT`. -/
def scenarioEdge : Snake := ⟨GREEN, DARKGREEN, 1, ⟨2147483647, 0⟩, RIGHT, [⟨2147483647, 0⟩]⟩

/-- The entity built by `Snake(4294967295, (0,0), RIGHT, GREEN, DARKGREEN)`,
whose length is the largest `uint32_t`. -/
def maxLengthSnake : Snake := Snake.construct 4294967295 ⟨0, 0⟩ RIGHT GREEN DARKGREEN

/-- The cells of a save text that declares length 2147483648, one more than the
largest `int`: that many copies of (0,0). -/
def hugeBodyCells : List Vector2Int := List.replicate 2147483648 ⟨0, 0⟩

/-! ### Call sequences with `reset`, iterated moves, the axis lookup -/

/-- One call of `turn`, `move`, `grow` or `reset`. -/
inductive Call where
  | turn (r : Direction)
  | move
  | grow
  | reset (length : Nat) (position : Vector2Int) (direction : Direction)
  deriving DecidableEq, Repr

/-- The effect of one call on the entity. -/
def applyCall (s : Snake) : Call → Except Fault Snake
  | Call.turn r => Except.ok (Snake.turn s r)
  | Call.move => Snake.move s
  | Call.grow => Snake.grow s
  | Call.reset n p d => Except.ok (Snake.reset s n p d)

/-- The effect of a sequence of calls, in order; the first fault stops it. -/
def applyCalls : List Call → Snake → Except Fault Snake
  | [], s => Except.ok s
  | c :: cs, s =>
    match applyCall s c with
    | Except.error e => Except.error e
    | Except.ok s1 => applyCalls cs s1

/-- The call is not a `reset` to the direction `NONE`. -/
def callAvoidsNone : Call → Bool
  | Call.reset _ _ d => decide (d ≠ NONE)
  | _ => true

/-- No `reset` of the sequence is given the direction `NONE`. -/
def resetsAvoidNone (cs : List Call) : Prop := ∀ c ∈ cs, callAvoidsNone c = true

instance (cs : List Call) : Decidable (resetsAvoidNone cs) := by
  unfold resetsAvoidNone; infer_instance

/-- Whether the sequence keeps the length a positive 32-bit value when started
at length `len`: every `grow` happens below the largest `uint32_t`, and every
`reset` is given a length of at least 1 that is a 32-bit unsigned value. -/
def lengthStaysPositive : Nat → List Call → Bool
  | _, [] => true
  | len, Call.grow :: cs => decide (len < 4294967295) && lengthStaysPositive (len + 1) cs
  | _, Call.reset n _ _ :: cs =>
    decide (1 ≤ n) && decide (n < 4294967296) && lengthStaysPositive n cs
  | len, Call.turn _ :: cs => lengthStaysPositive len cs
  | len, Call.move :: cs => lengthStaysPositive len cs

/-- The entity after `k` calls of `move` with nothing in between. -/
def moveTimes : Nat → Snake → Except Fault Snake
  | 0, s => Except.ok s
  | k + 1, s =>
    match moveTimes k s with
    | Except.error e => Except.error e
    | Except.ok s1 => Snake.move s1

/-- Claim-side: the two movement axes. -/
inductive Axis where
  | vertical
  | horizontal
  deriving DecidableEq, Repr

/-- Claim-side: the axis lookup of the design notes: `UP` and `DOWN` are
vertical, `LEFT` and `RIGHT` horizontal; `NONE` and anything else has no axis. -/
def specAxis (d : Direction) : Option Axis :=
  if d = UP ∨ d = DOWN then some Axis.vertical
  else if d = LEFT ∨ d = RIGHT then some Axis.horizontal
  else none

/-- Claim-side: `turn` re-implemented with the axis lookup: a `NONE` request is
rejected, a request whose axis matches the current axis is rejected, any other
request replaces the heading. -/
def specTurn (s : Snake) (r : Direction) : Snake :=
  if r = NONE then s
  else if specAxis r = specAxis s.direction then s
  else { s with direction := r }

/-- Claim-side: the cell that index `i` holds after `k` moves from a stack of
cells at `P` along the unit step `v`. -/
def specUnspooled (P v : Vector2Int) (k i : Nat) : Vector2Int :=
  if i ≤ k then ⟨P.x + ((k : Int) - (i : Int)) * v.x, P.y + ((k : Int) - (i : Int)) * v.y⟩
  else P

/-- Length 2 at (10,10) heading `RIGHT`. -/
def scenarioShort : Snake := Snake.construct 2 ⟨10, 10⟩ RIGHT GREEN DARKGREEN

/-- The save text with the direction code 7. -/
def scenarioBadDirection : List Char := "L:1,D:7\nB\n b:0,0\n".toList

/-- A sequence of calls with one call of each kind; its `reset` is given
length 2 and the direction `LEFT`. -/
def scenarioCalls : List Call :=
  [Call.turn UP, Call.move, Call.grow, Call.reset 2 ⟨1, 1⟩ LEFT, Call.turn NONE, Call.move]

/-- A straight entity of length 3 heading `RIGHT`: body [(10,10),(9,10),(8,10)]. -/
def scenarioStraight : Snake :=
  ⟨GREEN, DARKGREEN, 3, ⟨10, 10⟩, RIGHT, [⟨10, 10⟩, ⟨9, 10⟩, ⟨8, 10⟩]⟩

/-! ## Lemmas -/

/-! ### Collision scans -/

theorem selfScan_iff (body : List Vector2Int) :
    ∀ (rest : List Vector2Int) (k : Nat),
      Snake.selfScan body k rest = true
        ↔ ∃ j, j < rest.length ∧ k + j ≠ 0 ∧ rest[j]? = body.head? := by
  intro rest
  induction rest with
  | nil => intro k; simp [Snake.selfScan]
  | cons c r ih =>
    intro k
    rw [Snake.selfScan]
    by_cases hc : k ≠ 0 ∧ some c = body.head?
    · rw [if_pos hc]
      simp only [true_iff]
      exact ⟨0, by simp, by simpa using hc.1, by simpa using hc.2⟩
    · rw [if_neg hc, ih]
      constructor
      · rintro ⟨j, hj, hk, he⟩
        exact ⟨j + 1, by simpa using hj, by omega, by simpa using he⟩
      · rintro ⟨j, hj, hk, he⟩
        cases j with
        | zero =>
          exfalso; apply hc
          exact ⟨by simpa using hk, by simpa using he⟩
        | succ j =>
          exact ⟨j, by simpa using hj, by omega, by simpa using he⟩

theorem otherScan_some (f : Vector2Int) :
    ∀ l : List Vector2Int, Snake.otherScan (some f) l = Except.ok (decide (f ∈ l)) := by
  intro l
  induction l with
  | nil => simp [Snake.otherScan]
  | cons c r ih =>
    rw [Snake.otherScan]
    by_cases hc : c = f
    · simp [hc]
    · have hc2 : ¬ f = c := fun h => hc h.symm
      simp [hc, hc2, ih]

/-! ### Movement -/

theorem moveShift_getElem :
    ∀ (i : Nat) (body : List Vector2Int), i < body.length →
      ∃ b, Snake.moveShift i body = Except.ok b ∧ b.length = body.length
        ∧ ∀ j, b[j]? = if 1 ≤ j ∧ j ≤ i then body[j - 1]? else body[j]? := by
  intro i
  induction i with
  | zero =>
    intro body _
    refine ⟨body, by simp [Snake.moveShift], rfl, ?_⟩
    intro j
    have : ¬ (1 ≤ j ∧ j ≤ 0) := by omega
    rw [if_neg this]
  | succ i ih =>
    intro body hlt
    have hi : i < body.length := by omega
    obtain ⟨b, hb, hlen, hget⟩ := ih (body.set (i + 1) body[i]) (by simpa using hi)
    refine ⟨b, ?_, by simpa using hlen, ?_⟩
    · rw [Snake.moveShift]
      simp only [List.getElem?_eq_getElem hi, hlt, decide_True]
      exact hb
    · intro j
      rw [hget j]
      by_cases h1 : 1 ≤ j ∧ j ≤ i
      · have h2 : 1 ≤ j ∧ j ≤ i + 1 := by omega
        rw [if_pos h1, if_pos h2, List.getElem?_set]
        have : ¬ (i + 1 = j - 1) := by omega
        simp [this]
      · rw [if_neg h1]
        by_cases h2 : j = i + 1
        · subst h2
          have h3 : 1 ≤ i + 1 ∧ i + 1 ≤ i + 1 := by omega
          rw [if_pos h3, List.getElem?_set]
          simp [hlt, List.getElem?_eq_getElem hi]
        · have h3 : ¬ (1 ≤ j ∧ j ≤ i + 1) := by omega
          rw [if_neg h3, List.getElem?_set]
          have : ¬ (i + 1 = j) := by omega
          simp [this]

theorem wrapInt_of_inRange (z : Int) (hlo : -2147483648 ≤ z) (hhi : z ≤ 2147483647) :
    wrapInt z = z := by
  unfold wrapInt
  omega

theorem movePosition_eq (d : Direction) (p : Vector2Int)
    (h : inIntRange ⟨p.x + (specUnitDelta d).x, p.y + (specUnitDelta d).y⟩) :
    Snake.movePosition d p = ⟨p.x + (specUnitDelta d).x, p.y + (specUnitDelta d).y⟩ := by
  obtain ⟨x, y⟩ := p
  unfold inIntRange at h
  unfold Snake.movePosition
  unfold specUnitDelta at h ⊢
  split_ifs at h ⊢ <;> simp only [Vector2Int.mk.injEq] <;> simp only at h
  · exact ⟨by omega, by rw [wrapInt_of_inRange _ (by omega) (by omega)]; omega⟩
  · exact ⟨by omega, by rw [wrapInt_of_inRange _ (by omega) (by omega)]⟩
  · exact ⟨by rw [wrapInt_of_inRange _ (by omega) (by omega)]; omega, by omega⟩
  · exact ⟨by rw [wrapInt_of_inRange _ (by omega) (by omega)], by omega⟩
  · exact ⟨by omega, by omega⟩

theorem wrapInt_step_ne (z : Int) :
    wrapInt (z + 1) ≠ z ∧ wrapInt (z - 1) ≠ z
      ∧ wrapInt (wrapInt (z + 1) + 1) ≠ z ∧ wrapInt (wrapInt (z - 1) - 1) ≠ z := by
  unfold wrapInt
  refine ⟨?_, ?_, ?_, ?_⟩ <;> omega

theorem move_eq (s : Snake) (h32 : s.length < 4294967296) (h1 : 1 ≤ s.length)
    (hb : s.body.length = s.length) :
    Snake.move s = Except.ok { s with
      position := Snake.movePosition s.direction s.position
      body := Snake.movePosition s.direction s.position :: s.body.dropLast } := by
  have hi : (4294967295 + s.length) % 4294967296 = s.length - 1 := by omega
  obtain ⟨b, hbeq, hlen, hget⟩ := moveShift_getElem (s.length - 1) s.body (by omega)
  have hpos : 0 < b.length := by omega
  have hmv : Snake.move s = Except.ok { s with
      position := Snake.movePosition s.direction s.position
      body := b.set 0 (Snake.movePosition s.direction s.position) } := by
    unfold Snake.move
    rw [hi, hbeq]
    simp only [hpos, if_true]
  rw [hmv]
  suffices hbody : b.set 0 (Snake.movePosition s.direction s.position)
      = Snake.movePosition s.direction s.position :: s.body.dropLast by
    rw [hbody]
  apply List.ext_getElem?
  intro j
  rw [List.getElem?_set]
  cases j with
  | zero => simp [hpos]
  | succ j =>
    simp only [List.getElem?_cons_succ, List.dropLast_eq_take, List.getElem?_take]
    have h0 : ¬ (0 = j + 1) := by omega
    rw [if_neg h0, hget]
    by_cases hj : j + 1 ≤ s.length - 1
    · have : 1 ≤ j + 1 ∧ j + 1 ≤ s.length - 1 := by omega
      rw [if_pos this, if_pos (by omega)]
      simp
    · have : ¬ (1 ≤ j + 1 ∧ j + 1 ≤ s.length - 1) := by omega
      rw [if_neg this, if_neg (by omega)]
      exact List.getElem?_eq_none (by omega)

/-! ### Growth -/

theorem grow_eq (s : Snake) (last : Vector2Int) (hl : s.body.getLast? = some last) :
    Snake.grow s = Except.ok { s with
      length := (s.length + 1) % 4294967296
      body := s.body ++ [last] } := by
  unfold Snake.grow
  simp only [hl]

theorem maxLengthSnake_length : maxLengthSnake.length = 4294967295 := by
  show 4294967295 % 4294967296 = 4294967295
  exact Nat.mod_eq_of_lt (by omega)

theorem maxLengthSnake_body : maxLengthSnake.body = List.replicate 4294967295 ⟨0, 0⟩ := by
  show List.replicate (4294967295 % 4294967296) _ = _
  rw [Nat.mod_eq_of_lt (by omega)]

theorem maxLengthSnake_grow :
    Snake.grow maxLengthSnake = Except.ok { maxLengthSnake with
      length := 0
      body := List.replicate 4294967295 ⟨0, 0⟩ ++ [⟨0, 0⟩] } := by
  have hl : maxLengthSnake.body.getLast? = some ⟨0, 0⟩ := by
    rw [maxLengthSnake_body, List.getLast?_replicate, if_neg (by omega)]
  rw [grow_eq _ _ hl, maxLengthSnake_length, maxLengthSnake_body]

/-! ### Invariants -/

theorem turn_fields (s : Snake) (r : Direction) :
    (Snake.turn s r).length = s.length ∧ (Snake.turn s r).position = s.position
      ∧ (Snake.turn s r).body = s.body := by
  unfold Snake.turn
  split_ifs <;> simp

theorem turn_inv (s : Snake) (r : Direction) (h : Inv s) : Inv (Snake.turn s r) := by
  obtain ⟨hl, hp, hb⟩ := turn_fields s r
  unfold Inv
  rw [hl, hp, hb]
  exact h

theorem move_inv (s : Snake) (h32 : s.length < 4294967296) (h : Inv s) :
    ∃ s2, Snake.move s = Except.ok s2 ∧ Inv s2 ∧ s2.length = s.length := by
  obtain ⟨hb, _, h1⟩ := h
  refine ⟨_, move_eq s h32 h1 hb, ⟨?_, ?_, h1⟩, rfl⟩
  · show (_ :: s.body.dropLast).length = s.length
    simp [hb]; omega
  · simp

theorem grow_inv (s : Snake) (hmax : s.length < 4294967295) (h : Inv s) :
    ∃ s2, Snake.grow s = Except.ok s2 ∧ Inv s2 ∧ s2.length = s.length + 1 := by
  obtain ⟨hb, hp, h1⟩ := h
  have hne : s.body ≠ [] := by
    intro h; rw [h] at hb; simp at hb; omega
  have hl : s.body.getLast? = some (s.body.getLast hne) := List.getLast?_eq_getLast _ hne
  have hmod : (s.length + 1) % 4294967296 = s.length + 1 := Nat.mod_eq_of_lt (by omega)
  refine ⟨_, grow_eq s _ hl, ⟨?_, ?_, ?_⟩, hmod⟩
  · show (s.body ++ [_]).length = (s.length + 1) % 4294967296
    rw [hmod]; simp [hb]
  · show (s.body ++ [_])[0]? = some s.position
    rw [List.getElem?_append_left (by omega)]
    exact hp
  · show 1 ≤ (s.length + 1) % 4294967296
    rw [hmod]; omega

theorem applyOps_inv :
    ∀ (ops : List Op) (s : Snake), Inv s → s.length + countGrow ops < 4294967296 →
      ∃ s2, applyOps ops s = Except.ok s2 ∧ Inv s2 ∧ s2.length = s.length + countGrow ops := by
  intro ops
  induction ops with
  | nil => intro s h _; exact ⟨s, rfl, h, rfl⟩
  | cons op ops ih =>
    intro s h hlen
    cases op with
    | turn r =>
      simp only [countGrow] at hlen ⊢
      have hl := (turn_fields s r).1
      obtain ⟨s2, h2, hi2, hl2⟩ := ih (Snake.turn s r) (turn_inv s r h) (by rw [hl]; exact hlen)
      exact ⟨s2, by simpa [applyOps, applyOp] using h2, hi2, by rw [hl2, hl]⟩
    | move =>
      simp only [countGrow] at hlen ⊢
      obtain ⟨s1, h1, hi1, hl1⟩ := move_inv s (by omega) h
      obtain ⟨s2, h2, hi2, hl2⟩ := ih s1 hi1 (by rw [hl1]; exact hlen)
      exact ⟨s2, by simpa [applyOps, applyOp, h1] using h2, hi2, by rw [hl2, hl1]⟩
    | grow =>
      simp only [countGrow] at hlen ⊢
      obtain ⟨s1, h1, hi1, hl1⟩ := grow_inv s (by omega) h
      obtain ⟨s2, h2, hi2, hl2⟩ := ih s1 hi1 (by rw [hl1]; omega)
      exact ⟨s2, by simpa [applyOps, applyOp, h1] using h2, hi2, by rw [hl2, hl1]; omega⟩

/-! ### Decimal digits -/

theorem digitChar_isDigit : ∀ k, k < 10 → (Nat.digitChar k).isDigit = true := by decide

theorem digitChar_value : ∀ k, k < 10 → (Nat.digitChar k).toNat - 48 = k := by decide

theorem toDigitsCore_isDigit :
    ∀ (fuel n : Nat) (acc : List Char) (c : Char),
      c ∈ Nat.toDigitsCore 10 fuel n acc → c.isDigit = true ∨ c ∈ acc := by
  intro fuel
  induction fuel with
  | zero => intro n acc c h; right; simpa [Nat.toDigitsCore] using h
  | succ fuel ih =>
    intro n acc c h
    rw [Nat.toDigitsCore] at h
    have hd : (Nat.digitChar (n % 10)).isDigit = true := digitChar_isDigit _ (Nat.mod_lt _ (by omega))
    split_ifs at h with h0
    · rcases List.mem_cons.1 h with h | h
      · left; rw [h]; exact hd
      · right; exact h
    · rcases ih _ _ _ h with h | h
      · left; exact h
      · rcases List.mem_cons.1 h with h | h
        · left; rw [h]; exact hd
        · right; exact h

theorem toDigitsCore_ne_nil :
    ∀ (fuel n : Nat) (acc : List Char), 0 < fuel → Nat.toDigitsCore 10 fuel n acc ≠ [] := by
  intro fuel
  induction fuel with
  | zero => intro n acc h; omega
  | succ fuel ih =>
    intro n acc _
    rw [Nat.toDigitsCore]
    split_ifs with h0
    · simp
    · cases fuel with
      | zero => simp [Nat.toDigitsCore]
      | succ f => exact ih _ _ (by omega)

theorem toDigitsCore_value :
    ∀ (fuel n : Nat) (acc : List Char), n < fuel →
      List.foldl (fun a c => a * 10 + (c.toNat - 48)) 0 (Nat.toDigitsCore 10 fuel n acc)
        = List.foldl (fun a c => a * 10 + (c.toNat - 48)) n acc := by
  intro fuel
  induction fuel with
  | zero => intro n acc h; omega
  | succ fuel ih =>
    intro n acc hlt
    rw [Nat.toDigitsCore]
    have hv := digitChar_value (n % 10) (Nat.mod_lt _ (by omega))
    split_ifs with h0
    · have h10 : n % 10 = n := by omega
      simp only [List.foldl_cons, Nat.zero_mul, Nat.zero_add]
      rw [hv, h10]
    · rw [ih (n / 10) _ (by omega)]
      simp only [List.foldl_cons, hv]
      congr 1
      omega

theorem toDigits_isDigit (n : Nat) (c : Char) (h : c ∈ Nat.toDigits 10 n) : c.isDigit = true := by
  rcases toDigitsCore_isDigit _ _ _ _ h with h | h
  · exact h
  · simp at h

theorem toDigits_ne_nil (n : Nat) : Nat.toDigits 10 n ≠ [] :=
  toDigitsCore_ne_nil _ _ _ (by omega)

theorem digitsValue_toDigits (n : Nat) : digitsValue (Nat.toDigits 10 n) = n := by
  unfold digitsValue Nat.toDigits
  rw [toDigitsCore_value _ _ _ (by omega)]
  rfl

/-! ### Number conversion -/

theorem decimal_chars (z : Int) (c : Char) (h : c ∈ decimal z) : isDecimalChar c = true := by
  unfold isDecimalChar
  cases z with
  | ofNat n =>
    rw [toDigits_isDigit n c h]; rfl
  | negSucc n =>
    rcases List.mem_cons.1 h with h | h
    · rw [h]; rfl
    · rw [toDigits_isDigit _ c h]; rfl

theorem decimal_ne_nil (z : Int) : decimal z ≠ [] := by
  cases z with
  | ofNat n => exact toDigits_ne_nil n
  | negSucc n => exact List.cons_ne_nil _ _

theorem isDecimalChar_cases (c : Char) (h : isDecimalChar c = true) :
    c ≠ '\n' ∧ c ≠ ',' ∧ c ≠ ':' ∧ isspace c = false ∧ c ≠ '+' := by
  unfold isDecimalChar at h
  refine ⟨?_, ?_, ?_, ?_, ?_⟩
  · rintro rfl; revert h; decide
  · rintro rfl; revert h; decide
  · rintro rfl; revert h; decide
  · by_contra hs
    have hs2 : isspace c = true := by simpa using hs
    unfold isspace at hs2
    simp only [Bool.or_eq_true, decide_eq_true_eq] at hs2
    rcases hs2 with ((((rfl | rfl) | rfl) | rfl) | rfl) | rfl <;> revert h <;> decide
  · rintro rfl; revert h; decide

theorem decimal_not_mem (z : Int) :
    '\n' ∉ decimal z ∧ ',' ∉ decimal z ∧ ':' ∉ decimal z := by
  refine ⟨?_, ?_, ?_⟩ <;> intro h
  · exact (isDecimalChar_cases _ (decimal_chars z _ h)).1 rfl
  · exact (isDecimalChar_cases _ (decimal_chars z _ h)).2.1 rfl
  · exact (isDecimalChar_cases _ (decimal_chars z _ h)).2.2.1 rfl

theorem takeWhile_all {α : Type} (p : α → Bool) :
    ∀ l : List α, (∀ c ∈ l, p c = true) → l.takeWhile p = l := by
  intro l
  induction l with
  | nil => intro _; rfl
  | cons a l ih =>
    intro h
    rw [List.takeWhile_cons, h a (List.mem_cons_self _ _)]
    simp only [if_true]
    rw [ih (fun c hc => h c (List.mem_cons_of_mem _ hc))]

theorem stoi_toDigits (n : Nat) (hn : n ≤ 2147483647) :
    stoi (Nat.toDigits 10 n) = Except.ok (n : Int) := by
  obtain ⟨c, cs, hcs⟩ := List.exists_cons_of_ne_nil (toDigits_ne_nil n)
  have hall : ∀ d ∈ c :: cs, d.isDigit = true := by
    intro d hd; rw [← hcs] at hd; exact toDigits_isDigit n d hd
  have hc : c.isDigit = true := hall c (List.mem_cons_self _ _)
  have hcd : isDecimalChar c = true := by unfold isDecimalChar; rw [hc]; rfl
  obtain ⟨_, _, _, hsp, hplus⟩ := isDecimalChar_cases c hcd
  have hminus : c ≠ '-' := by rintro rfl; revert hc; decide
  have hval : digitsValue (c :: cs) = n := by rw [← hcs]; exact digitsValue_toDigits n
  unfold stoi
  rw [hcs]
  have hdw : List.dropWhile isspace (c :: cs) = c :: cs := by
    rw [List.dropWhile_cons, hsp]; rfl
  simp only [hdw, List.head?_cons, Option.some.injEq, hminus, hplus, or_self, if_false,
    decide_False, takeWhile_all _ _ hall, hval]
  simp only [List.cons_ne_nil, if_false, Bool.false_eq_true]
  rw [if_neg (by omega)]

theorem stoi_decimal (z : Int) (hlo : -2147483648 ≤ z) (hhi : z ≤ 2147483647) :
    stoi (decimal z) = Except.ok z := by
  cases z with
  | ofNat n =>
    have hn : n ≤ 2147483647 := by
      have h : ((n : Nat) : Int) ≤ 2147483647 := hhi
      omega
    exact stoi_toDigits n hn
  | negSucc n =>
    have hall : ∀ d ∈ Nat.toDigits 10 (n + 1), d.isDigit = true := fun d hd => toDigits_isDigit _ d hd
    rw [Int.negSucc_eq] at hlo
    unfold stoi decimal
    have hdw : List.dropWhile isspace ('-' :: Nat.toDigits 10 (n + 1)) = '-' :: Nat.toDigits 10 (n + 1) := by
      rw [List.dropWhile_cons]; rfl
    simp only [hdw, List.head?_cons, true_or, if_true, decide_True, List.tail_cons,
      takeWhile_all _ _ hall, digitsValue_toDigits, toDigits_ne_nil]
    simp only [if_false]
    rw [if_neg (by omega)]
    rfl

/-! ### Streams and the header line -/

theorem extractUntil_found (d : Char) (b : List Char) :
    ∀ a : List Char, d ∉ a → IStream.extractUntil d (a ++ d :: b) = (a, some b) := by
  intro a
  induction a with
  | nil => intro _; simp [IStream.extractUntil]
  | cons c a ih =>
    intro h
    have hc : c ≠ d := fun e => h (by rw [e]; exact List.mem_cons_self _ _)
    have ha : d ∉ a := fun e => h (List.mem_cons_of_mem _ e)
    simp [IStream.extractUntil, hc, ih ha]

theorem extractUntil_end (d : Char) :
    ∀ a : List Char, d ∉ a → IStream.extractUntil d a = (a, none) := by
  intro a
  induction a with
  | nil => intro _; simp [IStream.extractUntil]
  | cons c a ih =>
    intro h
    have hc : c ≠ d := fun e => h (by rw [e]; exact List.mem_cons_self _ _)
    have ha : d ∉ a := fun e => h (List.mem_cons_of_mem _ e)
    simp [IStream.extractUntil, hc, ih ha]

theorem getline_found (st : IStream) (line : List Char) (d : Char) (a b : List Char)
    (he : st.eofbit = false) (hf : st.failbit = false) (hr : st.rest = a ++ d :: b)
    (h : d ∉ a) :
    IStream.getline st line d = ({ st with rest := b }, a) := by
  unfold IStream.getline
  rw [he, hf, hr, extractUntil_found d b a h]
  simp

theorem getline_end (st : IStream) (line : List Char) (d : Char) (a : List Char)
    (he : st.eofbit = false) (hf : st.failbit = false) (hr : st.rest = a) (h : d ∉ a) :
    IStream.getline st line d
      = ({ st with rest := [], eofbit := true, failbit := a.isEmpty }, a) := by
  unfold IStream.getline
  rw [he, hf, hr, extractUntil_end d a h]
  simp

theorem getline_not_good (st : IStream) (line : List Char) (d : Char) (he : st.eofbit = true) :
    IStream.getline st line d = ({ st with failbit := true }, line) := by
  unfold IStream.getline
  rw [he]
  simp

theorem readHeader_spec (fuel : Nat) (N : Nat) (d : Int) (line0 : List Char) (t : Snake)
    (hN : N ≤ 2147483647) (hlo : -2147483648 ≤ d) (hhi : d ≤ 2147483647) :
    Snake.readHeader (fuel + 3) (IStream.ofText (specHeader N d)) line0 t
      = Except.ok ({ t with length := N, direction := d }, decimal d) := by
  obtain ⟨hn1, hn2, hn3⟩ := decimal_not_mem (Int.ofNat N)
  obtain ⟨hd1, hd2, hd3⟩ := decimal_not_mem d
  have hsN : stoi (decimal (Int.ofNat N)) = Except.ok (Int.ofNat N) :=
    stoi_decimal _ (by simp; omega) (by simp; omega)
  have hsd : stoi (decimal d) = Except.ok d := stoi_decimal d hlo hhi
  have hNmod : (Int.ofNat N % 4294967296).toNat = N := by
    simp only [Int.ofNat_eq_coe]; omega
  -- first iteration: key `L`
  have g1 : IStream.getline (IStream.ofText (specHeader N d)) line0 ':'
      = (⟨specHeader N d, decimal (Int.ofNat N) ++ ',' :: ('D' :: ':' :: decimal d), false, false⟩,
          ['L']) := by
    rw [getline_found _ line0 ':' ['L'] (decimal (Int.ofNat N) ++ ',' :: ('D' :: ':' :: decimal d))
      rfl rfl (by simp [IStream.ofText, specHeader]) (by decide)]
    rfl
  have g2 : IStream.getline
      ⟨specHeader N d, decimal (Int.ofNat N) ++ ',' :: ('D' :: ':' :: decimal d), false, false⟩
      ['L'] ','
      = (⟨specHeader N d, 'D' :: ':' :: decimal d, false, false⟩, decimal (Int.ofNat N)) := by
    rw [getline_found _ _ ',' (decimal (Int.ofNat N)) ('D' :: ':' :: decimal d) rfl rfl rfl hn2]
  -- second iteration: key `D`
  have g3 : IStream.getline ⟨specHeader N d, 'D' :: ':' :: decimal d, false, false⟩
      (decimal (Int.ofNat N)) ':'
      = (⟨specHeader N d, decimal d, false, false⟩, ['D']) := by
    rw [getline_found _ _ ':' ['D'] (decimal d) rfl rfl rfl (by decide)]
  have g4 : IStream.getline ⟨specHeader N d, decimal d, false, false⟩ ['D'] ','
      = (⟨specHeader N d, [], true, false⟩, decimal d) := by
    rw [getline_end _ _ ',' (decimal d) rfl rfl rfl hd2]
    have : (decimal d).isEmpty = false := by
      cases h : decimal d with
      | nil => exact absurd h (decimal_ne_nil d)
      | cons _ _ => rfl
    simp [this]
  -- third iteration: the stream is at its end
  have g5 : IStream.getline ⟨specHeader N d, [], true, false⟩ (decimal d) ':'
      = (⟨specHeader N d, [], true, true⟩, decimal d) := by
    rw [getline_not_good _ _ _ rfl]
  have hL : "L".toList = ['L'] := rfl
  have hD : "D".toList = ['D'] := rfl
  rw [Snake.readHeader, g1]
  simp only [hL, hD, Bool.false_eq_true, if_false, if_true, g2, hsN, hNmod]
  rw [Snake.readHeader, g3]
  simp only [hL, hD, Bool.false_eq_true, if_false, if_true, g4, hsd]
  have hDL : ¬ (['D'] = ['L']) := by decide
  simp only [hDL, if_false]
  rw [Snake.readHeader, g5]
  simp only [if_true]

/-! ### Body lines and the whole text -/

theorem specBodyLine_no_newline (c : Vector2Int) : '\n' ∉ specBodyLine c := by
  unfold specBodyLine
  intro h
  simp only [List.mem_append, List.mem_cons, List.mem_singleton, List.not_mem_nil, or_false] at h
  rcases h with ((h | h) | h) | h
  · revert h; decide
  · exact (decimal_not_mem c.x).1 h
  · revert h; decide
  · exact (decimal_not_mem c.y).1 h

theorem readBody_step (c : Vector2Int) (hc : inIntRange c) (is : IStream) (line tail : List Char)
    (he : is.eofbit = false) (hf : is.failbit = false)
    (hr : is.rest = specBodyLine c ++ '\n' :: tail) (n : Nat) (body : List Vector2Int) :
    Snake.readBody (n + 1) is line body
      = Snake.readBody n { is with rest := tail } (specBodyLine c) (body ++ [c]) := by
  have g1 := getline_found is line '\n' (specBodyLine c) tail he hf hr (specBodyLine_no_newline c)
  have hseek : IStream.seekg (IStream.ofText (specBodyLine c)) 3
      = ⟨specBodyLine c, decimal c.x ++ ',' :: decimal c.y, false, false⟩ := by
    unfold IStream.seekg IStream.ofText
    have hlen : 3 ≤ (specBodyLine c).length := by simp [specBodyLine]
    simp only [Bool.false_eq_true, if_false, hlen, if_true]
    simp only [specBodyLine, List.cons_append, List.nil_append, List.drop_succ_cons, List.drop_zero,
      List.append_assoc]
  have g2 : IStream.getline ⟨specBodyLine c, decimal c.x ++ ',' :: decimal c.y, false, false⟩ [] ','
      = (⟨specBodyLine c, decimal c.y, false, false⟩, decimal c.x) := by
    rw [getline_found _ _ ',' (decimal c.x) (decimal c.y) rfl rfl rfl (decimal_not_mem c.x).2.1]
  have g3 : (IStream.getline ⟨specBodyLine c, decimal c.y, false, false⟩ (decimal c.x) ',').2
      = decimal c.y := by
    rw [getline_end _ _ ',' (decimal c.y) rfl rfl rfl (decimal_not_mem c.y).2.1]
  rw [Snake.readBody, g1]
  simp only [hseek, g2, g3, stoi_decimal c.x hc.1.1 hc.1.2, stoi_decimal c.y hc.2.1 hc.2.2]

theorem readBody_spec (tail : List Char) :
    ∀ (cs : List Vector2Int) (is : IStream) (line : List Char) (body : List Vector2Int),
      (∀ c ∈ cs, inIntRange c) → is.eofbit = false → is.failbit = false →
      is.rest = specBodyLines cs ++ tail →
      Snake.readBody cs.length is line body = Except.ok ({ is with rest := tail }, body ++ cs) := by
  intro cs
  induction cs with
  | nil =>
    intro is line body _ _ _ hr
    simp only [specBodyLines, List.nil_append] at hr
    simp only [List.length_nil, Snake.readBody, List.append_nil]
    rw [← hr]
  | cons c cs ih =>
    intro is line body hc he hf hr
    have hr2 : is.rest = specBodyLine c ++ '\n' :: (specBodyLines cs ++ tail) := by
      rw [hr]; simp [specBodyLines]
    rw [List.length_cons, readBody_step c (hc c (List.mem_cons_self _ _)) is line _ he hf hr2]
    rw [ih { is with rest := specBodyLines cs ++ tail } _ _
      (fun d hd => hc d (List.mem_cons_of_mem _ hd)) he hf rfl]
    simp

theorem specHeader_no_newline (N : Nat) (d : Int) : '\n' ∉ specHeader N d := by
  unfold specHeader
  intro h
  simp only [List.mem_append, List.mem_cons, List.mem_singleton, List.not_mem_nil, or_false] at h
  rcases h with ((h | h) | h) | h
  · revert h; decide
  · exact (decimal_not_mem _).1 h
  · revert h; decide
  · exact (decimal_not_mem d).1 h

theorem specHeader_length (N : Nat) (d : Int) :
    ∃ m, (specHeader N d).length + 1 = m + 3 := by
  refine ⟨(specHeader N d).length - 2, ?_⟩
  have : 5 ≤ (specHeader N d).length := by simp [specHeader]; omega
  omega

theorem deserialize_spec (N : Nat) (d : Int) (cs : List Vector2Int) (tail : List Char) (t : Snake)
    (hN : N ≤ 2147483647) (hlo : -2147483648 ≤ d) (hhi : d ≤ 2147483647)
    (hlen : cs.length = N) (hc : ∀ c ∈ cs, inIntRange c) (front : Vector2Int)
    (hfront : cs.head? = some front) :
    Snake.deserialize (IStream.ofText (specText N d cs ++ tail)) t
      = Except.ok (⟨specText N d cs ++ tail, tail, false, false⟩,
          { t with length := N, direction := d, body := cs, position := front }) := by
  have g1 : IStream.getline (IStream.ofText (specText N d cs ++ tail)) [] '\n'
      = (⟨specText N d cs ++ tail, 'B' :: '\n' :: (specBodyLines cs ++ tail), false, false⟩,
          specHeader N d) := by
    rw [getline_found _ _ '\n' (specHeader N d) ('B' :: '\n' :: (specBodyLines cs ++ tail))
      rfl rfl (by simp [IStream.ofText, specText]) (specHeader_no_newline N d)]
    rfl
  have g2 : IStream.getline
      ⟨specText N d cs ++ tail, 'B' :: '\n' :: (specBodyLines cs ++ tail), false, false⟩
      (decimal d) '\n'
      = (⟨specText N d cs ++ tail, specBodyLines cs ++ tail, false, false⟩, ['B']) := by
    rw [getline_found _ _ '\n' ['B'] (specBodyLines cs ++ tail) rfl rfl rfl (by decide)]
  obtain ⟨m, hm⟩ := specHeader_length N d
  unfold Snake.deserialize
  simp only [g1]
  have hfuel : (IStream.ofText (specHeader N d)).rest.length + 1 = m + 3 := hm
  rw [hfuel, readHeader_spec m N d _ t hN hlo hhi]
  simp only [g2]
  have hb := readBody_spec tail cs
    ⟨specText N d cs ++ tail, specBodyLines cs ++ tail, false, false⟩ ['B'] [] hc rfl rfl rfl
  rw [hlen] at hb
  rw [hb]
  simp only [List.nil_append, hfront]

/-! ### Serialization -/

theorem specBodyLines_append (as bs : List Vector2Int) :
    specBodyLines (as ++ bs) = specBodyLines as ++ specBodyLines bs := by
  induction as with
  | nil => rfl
  | cons a as ih => simp [specBodyLines, ih]

theorem serialize_foldl (body : List Vector2Int) :
    ∀ os : List Char,
      List.foldl
        (fun o cell => o ++ " b:".toList ++ decimal cell.x ++ ",".toList ++ decimal cell.y ++ ['\n'])
        os body
      = os ++ specBodyLines body := by
  induction body with
  | nil => intro os; simp [specBodyLines]
  | cons c cs ih =>
    intro os
    rw [List.foldl_cons, ih]
    have h1 : " b:".toList = [' ', 'b', ':'] := rfl
    have h2 : ",".toList = [','] := rfl
    simp [specBodyLines, specBodyLine, h1, h2]

theorem serialize_eq (os : List Char) (s : Snake) :
    Snake.serialize os s = os ++ specText s.length s.direction s.body := by
  unfold Snake.serialize
  rw [serialize_foldl]
  have h1 : "L:".toList = ['L', ':'] := rfl
  have h2 : ",D:".toList = [',', 'D', ':'] := rfl
  have h3 : "B".toList = ['B'] := rfl
  simp [specText, specHeader, h1, h2, h3]

theorem count_newline_decimal (z : Int) : List.count '\n' (decimal z) = 0 :=
  List.count_eq_zero.2 (decimal_not_mem z).1

theorem count_newline_specBodyLines (cs : List Vector2Int) :
    List.count '\n' (specBodyLines cs) = cs.length := by
  induction cs with
  | nil => rfl
  | cons c cs ih =>
    have hline : List.count '\n' (specBodyLine c) = 0 :=
      List.count_eq_zero.2 (specBodyLine_no_newline c)
    simp only [specBodyLines, List.count_append, List.count_cons_self, hline, ih, List.length_cons]
    omega

theorem count_newline_specText (N : Nat) (d : Int) (cs : List Vector2Int) :
    List.count '\n' (specText N d cs) = cs.length + 2 := by
  have hh : List.count '\n' (specHeader N d) = 0 :=
    List.count_eq_zero.2 (specHeader_no_newline N d)
  have hB : List.count '\n' ('B' :: '\n' :: specBodyLines cs) = cs.length + 1 := by
    rw [List.count_cons_of_ne (by decide), List.count_cons_self, count_newline_specBodyLines]
  unfold specText
  rw [List.count_append, hh, List.count_cons_self, hB]
  omega

/-! ### Stream bookkeeping -/

theorem getline_header (N : Nat) (d : Int) (rest : List Char) :
    IStream.getline (IStream.ofText (specHeader N d ++ '\n' :: rest)) [] '\n'
      = (⟨specHeader N d ++ '\n' :: rest, rest, false, false⟩, specHeader N d) := by
  rw [getline_found _ _ '\n' (specHeader N d) rest rfl rfl rfl (specHeader_no_newline N d)]
  rfl

theorem extractUntil_length (d : Char) :
    ∀ l : List Char,
      (∀ r, (IStream.extractUntil d l).2 = some r → r.length < l.length)
      ∧ ((IStream.extractUntil d l).2 = none → (IStream.extractUntil d l).1 = l) := by
  intro l
  induction l with
  | nil => simp [IStream.extractUntil]
  | cons c cs ih =>
    by_cases hc : c = d
    · simp [IStream.extractUntil, hc]
    · simp only [IStream.extractUntil, hc, if_false]
      refine ⟨fun r hr => ?_, fun hn => ?_⟩
      · have := ih.1 r hr
        simp only [List.length_cons]
        omega
      · rw [ih.2 hn]

theorem getline_cases (st : IStream) (line : List Char) (d : Char) :
    (IStream.getline st line d = ({ st with failbit := true }, line))
    ∨ (∃ l r, IStream.extractUntil d st.rest = (l, some r)
        ∧ IStream.getline st line d = ({ st with rest := r }, l))
    ∨ (∃ l, IStream.extractUntil d st.rest = (l, none)
        ∧ IStream.getline st line d
            = ({ st with rest := [], eofbit := true, failbit := l.isEmpty }, l)) := by
  by_cases hg : (st.eofbit || st.failbit) = true
  · left
    unfold IStream.getline
    rw [if_pos hg]
  · right
    rcases hx : IStream.extractUntil d st.rest with ⟨l, _ | r⟩
    · right
      refine ⟨l, rfl, ?_⟩
      unfold IStream.getline
      rw [if_neg hg, hx]
    · left
      refine ⟨l, r, rfl, ?_⟩
      unfold IStream.getline
      rw [if_neg hg, hx]

theorem getline_rest_le (st : IStream) (line : List Char) (d : Char) :
    (IStream.getline st line d).1.rest.length ≤ st.rest.length := by
  rcases getline_cases st line d with h | ⟨l, r, hx, h⟩ | ⟨l, hx, h⟩
  · rw [h]
  · rw [h]
    exact Nat.le_of_lt ((extractUntil_length d st.rest).1 r (by rw [hx]))
  · rw [h]
    exact Nat.zero_le _

theorem getline_rest_lt (st : IStream) (line : List Char) (d : Char)
    (hf : (IStream.getline st line d).1.failbit = false) :
    (IStream.getline st line d).1.rest.length < st.rest.length := by
  rcases getline_cases st line d with h | ⟨l, r, hx, h⟩ | ⟨l, hx, h⟩
  · rw [h] at hf
    exact absurd hf (by simp)
  · rw [h]
    exact (extractUntil_length d st.rest).1 r (by rw [hx])
  · rw [h] at hf ⊢
    have hl : l = st.rest := by
      have h2 := (extractUntil_length d st.rest).2 (by rw [hx])
      rw [hx] at h2
      exact h2
    have hne : l ≠ [] := by
      intro e
      rw [e] at hf
      exact absurd hf (by simp)
    rw [← hl]
    exact List.length_pos.2 hne

theorem readHeader_succ (fuel : Nat) (ss : IStream) (line : List Char) (t : Snake) :
    Snake.readHeader (fuel + 1) ss line t
      = if (IStream.getline ss line ':').1.failbit = true then
          Except.ok (t, (IStream.getline ss line ':').2)
        else if (IStream.getline ss line ':').2 = "L".toList then
          match stoi (IStream.getline (IStream.getline ss line ':').1
              (IStream.getline ss line ':').2 ',').2 with
          | Except.error e => Except.error e
          | Except.ok v =>
            Snake.readHeader fuel
              (IStream.getline (IStream.getline ss line ':').1 (IStream.getline ss line ':').2 ',').1
              (IStream.getline (IStream.getline ss line ':').1 (IStream.getline ss line ':').2 ',').2
              { t with length := (v % 4294967296).toNat }
        else if (IStream.getline ss line ':').2 = "D".toList then
          match stoi (IStream.getline (IStream.getline ss line ':').1
              (IStream.getline ss line ':').2 ',').2 with
          | Except.error e => Except.error e
          | Except.ok v =>
            Snake.readHeader fuel
              (IStream.getline (IStream.getline ss line ':').1 (IStream.getline ss line ':').2 ',').1
              (IStream.getline (IStream.getline ss line ':').1 (IStream.getline ss line ':').2 ',').2
              { t with direction := v }
        else
          Snake.readHeader fuel (IStream.getline ss line ':').1 (IStream.getline ss line ':').2 t := by
  rw [Snake.readHeader]

/-- The iteration bound of `readHeader` is never the reason it stops: with
more iterations allowed than unread characters, one more changes nothing. -/
theorem readHeader_fuel :
    ∀ (fuel : Nat) (ss : IStream) (line : List Char) (t : Snake), ss.rest.length < fuel →
      Snake.readHeader (fuel + 1) ss line t = Snake.readHeader fuel ss line t := by
  intro fuel
  induction fuel with
  | zero => intro ss line t h; omega
  | succ k ih =>
    intro ss line t h
    rw [readHeader_succ (k + 1), readHeader_succ k ss line t]
    have hle := getline_rest_le (IStream.getline ss line ':').1 (IStream.getline ss line ':').2 ','
    by_cases hf : (IStream.getline ss line ':').1.failbit = true
    · rw [if_pos hf, if_pos hf]
    · have hlt := getline_rest_lt ss line ':' (by simpa using hf)
      rw [if_neg hf, if_neg hf]
      by_cases hL : (IStream.getline ss line ':').2 = "L".toList
      · rw [if_pos hL, if_pos hL]
        cases stoi (IStream.getline (IStream.getline ss line ':').1
            (IStream.getline ss line ':').2 ',').2 with
        | error e => rfl
        | ok v => exact ih _ _ _ (by omega)
      · rw [if_neg hL, if_neg hL]
        by_cases hD : (IStream.getline ss line ':').2 = "D".toList
        · rw [if_pos hD, if_pos hD]
          cases stoi (IStream.getline (IStream.getline ss line ':').1
              (IStream.getline ss line ':').2 ',').2 with
          | error e => rfl
          | ok v => exact ih _ _ _ (by omega)
        · rw [if_neg hD, if_neg hD]
          exact ih _ _ _ (by omega)

/-- Any iteration bound above the number of unread characters gives the
result that `operator>>` computes with its bound, the number of unread
characters plus one. -/
theorem readHeader_fuel_enough (ss : IStream) (line : List Char) (t : Snake) :
    ∀ k : Nat, Snake.readHeader (ss.rest.length + 1 + k) ss line t
      = Snake.readHeader (ss.rest.length + 1) ss line t := by
  intro k
  induction k with
  | zero => rfl
  | succ k ih =>
    rw [← ih]
    exact readHeader_fuel (ss.rest.length + 1 + k) ss line t (by omega)

/-! ### Direction and length along call sequences -/

theorem turn_direction_ne_none (s : Snake) (r : Direction) (h : s.direction ≠ NONE) :
    (Snake.turn s r).direction ≠ NONE := by
  unfold Snake.turn
  split_ifs with h1 h2
  · exact h
  · exact h
  · exact h1

theorem move_direction (s s2 : Snake) (h : Snake.move s = Except.ok s2) :
    s2.direction = s.direction := by
  unfold Snake.move at h
  split at h
  · cases h
  · split_ifs at h
    cases h
    rfl

theorem grow_direction (s s2 : Snake) (h : Snake.grow s = Except.ok s2) :
    s2.direction = s.direction := by
  unfold Snake.grow at h
  split at h
  · cases h
  · cases h
    rfl

theorem applyCalls_direction :
    ∀ (calls : List Call) (s s2 : Snake), s.direction ≠ NONE → resetsAvoidNone calls →
      applyCalls calls s = Except.ok s2 → s2.direction ≠ NONE := by
  intro calls
  induction calls with
  | nil =>
    intro s s2 hs _ h
    cases h
    exact hs
  | cons c cs ih =>
    intro s s2 hs hr h
    have hrc : callAvoidsNone c = true := hr c (List.mem_cons_self _ _)
    have hrs : resetsAvoidNone cs := fun x hx => hr x (List.mem_cons_of_mem _ hx)
    rw [applyCalls] at h
    cases c with
    | turn r =>
      exact ih _ s2 (turn_direction_ne_none s r hs) hrs h
    | move =>
      simp only [applyCall] at h
      cases hm : Snake.move s with
      | error e => rw [hm] at h; cases h
      | ok s1 =>
        rw [hm] at h
        exact ih s1 s2 (by rw [move_direction s s1 hm]; exact hs) hrs h
    | grow =>
      simp only [applyCall] at h
      cases hm : Snake.grow s with
      | error e => rw [hm] at h; cases h
      | ok s1 =>
        rw [hm] at h
        exact ih s1 s2 (by rw [grow_direction s s1 hm]; exact hs) hrs h
    | reset n p d =>
      have hd : d ≠ NONE := by simpa [callAvoidsNone] using hrc
      exact ih _ s2 (by simpa [Snake.reset] using hd) hrs h

theorem construct_inv (N : Nat) (P : Vector2Int) (D : Direction) (bc tc : Color)
    (h1 : 1 ≤ N) (hN : N < 4294967296) : Inv (Snake.construct N P D bc tc) := by
  have hmod : N % 4294967296 = N := Nat.mod_eq_of_lt hN
  refine ⟨?_, ?_, ?_⟩
  · simp [Snake.construct]
  · show (List.replicate (N % 4294967296) P)[0]? = some P
    rw [hmod, List.getElem?_replicate, if_pos (by omega)]
  · show 1 ≤ N % 4294967296
    rw [hmod]; exact h1

theorem reset_inv (s : Snake) (N : Nat) (P : Vector2Int) (D : Direction)
    (h1 : 1 ≤ N) (hN : N < 4294967296) :
    Inv (Snake.reset s N P D) ∧ (Snake.reset s N P D).length = N := by
  have hmod : N % 4294967296 = N := Nat.mod_eq_of_lt hN
  refine ⟨⟨?_, ?_, ?_⟩, hmod⟩
  · simp [Snake.reset]
  · show ([] ++ List.replicate (N % 4294967296 - 0) P)[0]? = some P
    rw [hmod, List.nil_append, Nat.sub_zero, List.getElem?_replicate, if_pos (by omega)]
  · show 1 ≤ N % 4294967296
    rw [hmod]; exact h1

theorem applyCalls_inv :
    ∀ (calls : List Call) (s : Snake), Inv s → s.length < 4294967296 →
      lengthStaysPositive s.length calls = true →
      ∃ s2, applyCalls calls s = Except.ok s2 ∧ Inv s2 ∧ s2.length < 4294967296 := by
  intro calls
  induction calls with
  | nil => intro s h h32 _; exact ⟨s, rfl, h, h32⟩
  | cons c cs ih =>
    intro s h h32 hok
    cases c with
    | turn r =>
      have hl := (turn_fields s r).1
      simp only [lengthStaysPositive] at hok
      obtain ⟨s2, h2, hi2, hl2⟩ := ih (Snake.turn s r) (turn_inv s r h) (by rw [hl]; exact h32)
        (by rw [hl]; exact hok)
      exact ⟨s2, by simpa [applyCalls, applyCall] using h2, hi2, hl2⟩
    | move =>
      simp only [lengthStaysPositive] at hok
      obtain ⟨s1, h1, hi1, hl1⟩ := move_inv s h32 h
      obtain ⟨s2, h2, hi2, hl2⟩ := ih s1 hi1 (by rw [hl1]; exact h32) (by rw [hl1]; exact hok)
      exact ⟨s2, by simpa [applyCalls, applyCall, h1] using h2, hi2, hl2⟩
    | grow =>
      simp only [lengthStaysPositive, Bool.and_eq_true, decide_eq_true_eq] at hok
      obtain ⟨s1, h1, hi1, hl1⟩ := grow_inv s hok.1 h
      obtain ⟨s2, h2, hi2, hl2⟩ := ih s1 hi1 (by rw [hl1]; omega) (by rw [hl1]; exact hok.2)
      exact ⟨s2, by simpa [applyCalls, applyCall, h1] using h2, hi2, hl2⟩
    | reset n p d =>
      simp only [lengthStaysPositive, Bool.and_eq_true, decide_eq_true_eq] at hok
      obtain ⟨hi1, hl1⟩ := reset_inv s n p d hok.1.1 hok.1.2
      obtain ⟨s2, h2, hi2, hl2⟩ := ih (Snake.reset s n p d) hi1 (by rw [hl1]; exact hok.1.2)
        (by rw [hl1]; exact hok.2)
      exact ⟨s2, by simpa [applyCalls, applyCall] using h2, hi2, hl2⟩

/-! ### Two moves with turns in between -/

theorem two_steps_ne (s1 : Snake) (r : Direction) (p : Vector2Int)
    (hd : s1.direction = UP ∨ s1.direction = DOWN ∨ s1.direction = LEFT ∨ s1.direction = RIGHT)
    (hr : r = UP ∨ r = DOWN ∨ r = LEFT ∨ r = RIGHT ∨ r = NONE) :
    Snake.movePosition (Snake.turn s1 r).direction (Snake.movePosition s1.direction p) ≠ p := by
  obtain ⟨bc, tc, len, pos, d, body⟩ := s1
  obtain ⟨x, y⟩ := p
  obtain ⟨hx1, hx2, hx3, hx4⟩ := wrapInt_step_ne x
  obtain ⟨hy1, hy2, hy3, hy4⟩ := wrapInt_step_ne y
  simp only at hd
  rcases hd with h | h | h | h <;> rcases hr with h2 | h2 | h2 | h2 | h2 <;> subst h <;> subst h2 <;>
    simp +decide [Snake.turn, Snake.movePosition, UP, DOWN, LEFT, RIGHT, NONE, hx1, hx2, hx3, hx4,
      hy1, hy2, hy3, hy4]

theorem selfScan_replicate (n : Nat) (P : Vector2Int) :
    Snake.selfScan (List.replicate n P) 0 (List.replicate n P) = decide (2 ≤ n) := by
  rw [Bool.eq_iff_iff, selfScan_iff]
  simp only [decide_eq_true_eq, List.length_replicate]
  constructor
  · rintro ⟨j, hj, hne, _⟩
    omega
  · intro h2
    refine ⟨1, by omega, by omega, ?_⟩
    rw [List.getElem?_replicate, if_pos (by omega)]
    obtain ⟨m, rfl⟩ : ∃ m, n = m + 1 := ⟨n - 1, by omega⟩
    rfl

/-! ### Unspooling -/

theorem specUnspooled_zero (P v : Vector2Int) (i : Nat) : specUnspooled P v 0 i = P := by
  unfold specUnspooled
  split_ifs with h
  · have : i = 0 := by omega
    subst this
    obtain ⟨x, y⟩ := P
    simp
  · rfl

theorem specUnspooled_succ (P v : Vector2Int) (k j : Nat) :
    specUnspooled P v (k + 1) (j + 1) = specUnspooled P v k j := by
  unfold specUnspooled
  have h1 : (((k + 1 : Nat) : Int) - ((j + 1 : Nat) : Int)) = (k : Int) - (j : Int) := by
    push_cast; ring
  by_cases h : j ≤ k
  · rw [if_pos h, if_pos (by omega), h1]
  · rw [if_neg h, if_neg (by omega)]

theorem specUnspooled_head (P v : Vector2Int) (k : Nat) :
    (⟨(specUnspooled P v k 0).x + v.x, (specUnspooled P v k 0).y + v.y⟩ : Vector2Int)
      = specUnspooled P v (k + 1) 0 := by
  unfold specUnspooled
  rw [if_pos (Nat.zero_le _), if_pos (Nat.zero_le _)]
  simp only [Vector2Int.mk.injEq]
  constructor <;> (push_cast; ring)

theorem getElem?_map_range (f : Nat → Vector2Int) (N j : Nat) :
    ((List.range N).map f)[j]? = if j < N then some (f j) else none := by
  rw [List.getElem?_map]
  split_ifs with h
  · rw [List.getElem?_range h]; rfl
  · rw [List.getElem?_eq_none (by simpa using h)]; rfl

theorem unspool_step (P v : Vector2Int) (N k : Nat) (h1 : 1 ≤ N) :
    specUnspooled P v (k + 1) 0 :: ((List.range N).map (specUnspooled P v k)).dropLast
      = (List.range N).map (specUnspooled P v (k + 1)) := by
  apply List.ext_getElem?
  intro j
  cases j with
  | zero =>
    rw [getElem?_map_range, if_pos (by omega), List.getElem?_cons_zero]
  | succ j =>
    rw [List.getElem?_cons_succ, List.getElem?_dropLast, getElem?_map_range, getElem?_map_range,
      List.length_map, List.length_range, specUnspooled_succ]
    by_cases h : j < N - 1
    · rw [if_pos h, if_pos (by omega), if_pos (by omega)]
    · rw [if_neg h, if_neg (by omega)]

theorem moveTimes_unspool (s0 : Snake) (N : Nat) (P : Vector2Int)
    (hlen : s0.length = N) (hpos : s0.position = P) (hbody : s0.body = List.replicate N P)
    (h1 : 1 ≤ N) (hN : N < 4294967296) :
    ∀ k, (∀ j, j ≤ k → inIntRange (specUnspooled P (specUnitDelta s0.direction) j 0)) →
      moveTimes k s0 = Except.ok { s0 with
        position := specUnspooled P (specUnitDelta s0.direction) k 0
        body := (List.range N).map (specUnspooled P (specUnitDelta s0.direction) k) } := by
  intro k
  induction k with
  | zero =>
    intro _
    obtain ⟨bc, tc, len, pos, d, body⟩ := s0
    simp only at hlen hpos hbody
    subst hlen hpos hbody
    simp only [moveTimes, specUnspooled_zero]
    congr 2
    apply List.ext_getElem?
    intro j
    rw [getElem?_map_range, List.getElem?_replicate, specUnspooled_zero]
  | succ k ih =>
    intro hr
    rw [moveTimes, ih (fun j hj => hr j (by omega))]
    simp only
    rw [move_eq _ (by rw [hlen]; exact hN) (by rw [hlen]; exact h1)
      (by simp [hlen])]
    have hnext := hr (k + 1) (Nat.le_refl _)
    rw [← specUnspooled_head] at hnext
    simp only [movePosition_eq _ _ hnext, specUnspooled_head, unspool_step P _ N k h1]

theorem unspool_range (P : Vector2Int) (D : Direction) (k : Nat)
    (hD : D = UP ∨ D = DOWN ∨ D = LEFT ∨ D = RIGHT) (hP : inIntRange P)
    (hPk : inIntRange ⟨P.x + (k : Int) * (specUnitDelta D).x,
      P.y + (k : Int) * (specUnitDelta D).y⟩) :
    ∀ j, j ≤ k → inIntRange (specUnspooled P (specUnitDelta D) j 0) := by
  intro j hj
  obtain ⟨x, y⟩ := P
  unfold inIntRange at hP hPk ⊢
  unfold specUnspooled
  rw [if_pos (Nat.zero_le _)]
  rcases hD with h | h | h | h <;> subst h <;>
    simp +decide [specUnitDelta, UP, DOWN, LEFT, RIGHT] at hPk ⊢ <;>
    simp only at hP <;> omega

theorem unitDelta_cases (D : Direction)
    (hD : D = UP ∨ D = DOWN ∨ D = LEFT ∨ D = RIGHT) :
    ((specUnitDelta D).x = 1 ∨ (specUnitDelta D).x = -1)
      ∨ ((specUnitDelta D).y = 1 ∨ (specUnitDelta D).y = -1) := by
  rcases hD with h | h | h | h <;> subst h <;> decide

theorem specUnspooled_eq_start (P v : Vector2Int) (k i : Nat)
    (hv : (v.x = 1 ∨ v.x = -1) ∨ (v.y = 1 ∨ v.y = -1)) :
    specUnspooled P v k i = P ↔ k ≤ i := by
  obtain ⟨x, y⟩ := P
  unfold specUnspooled
  by_cases h : i ≤ k
  · rw [if_pos h]
    simp only [Vector2Int.mk.injEq]
    constructor
    · rintro ⟨hx, hy⟩
      rcases hv with (hv | hv) | (hv | hv) <;> simp only [hv] at hx hy <;> omega
    · intro hk
      have : k = i := by omega
      subst this
      simp
  · rw [if_neg h]
    simp only [true_iff]
    omega

theorem specUnspooled_injective (P v : Vector2Int) (k i j : Nat) (hi : i ≤ k) (hj : j ≤ k)
    (hv : (v.x = 1 ∨ v.x = -1) ∨ (v.y = 1 ∨ v.y = -1))
    (h : specUnspooled P v k i = specUnspooled P v k j) : i = j := by
  unfold specUnspooled at h
  rw [if_pos hi, if_pos hj] at h
  simp only [Vector2Int.mk.injEq] at h
  obtain ⟨hx, hy⟩ := h
  rcases hv with (hv | hv) | (hv | hv) <;> simp only [hv] at hx hy <;> omega

theorem countP_le_range (k : Nat) :
    ∀ N, List.countP (fun i => decide (k ≤ i)) (List.range N) = N - k := by
  intro N
  induction N with
  | zero => simp
  | succ n ih =>
    rw [List.range_succ, List.countP_append, ih]
    simp only [List.countP_cons, List.countP_nil, decide_eq_true_eq]
    split_ifs <;> omega

theorem unspooled_body_props (P : Vector2Int) (D : Direction) (N k : Nat) (h1 : 1 ≤ N)
    (hD : D = UP ∨ D = DOWN ∨ D = LEFT ∨ D = RIGHT) :
    ((List.range N).map (specUnspooled P (specUnitDelta D) k)).length = N
      ∧ (∀ i, i < N → ((List.range N).map (specUnspooled P (specUnitDelta D) k))[i]?
            = some (specUnspooled P (specUnitDelta D) k i))
      ∧ (N - 1 ≤ k → ((List.range N).map (specUnspooled P (specUnitDelta D) k)).Nodup)
      ∧ (k ≤ N - 1 →
          List.count P ((List.range N).map (specUnspooled P (specUnitDelta D) k)) = max (N - k) 1) := by
  have hv := unitDelta_cases D hD
  refine ⟨by simp, ?_, ?_, ?_⟩
  · intro i hi
    rw [getElem?_map_range, if_pos hi]
  · intro hk
    apply List.Nodup.map_on _ (List.nodup_range N)
    intro i hi j hj h
    rw [List.mem_range] at hi hj
    exact specUnspooled_injective P _ k i j (by omega) (by omega) hv h
  · intro hk
    rw [List.count_eq_countP, List.countP_map]
    rw [List.countP_congr (q := fun i => decide (k ≤ i)), countP_le_range]
    · omega
    · intro i _
      simp only [Function.comp, beq_iff_eq, decide_eq_true_eq]
      exact specUnspooled_eq_start P _ k i hv

/-! ## The claims -/

/-- C1. Round trip: for every entity `s` with `length >= 1`,
`body.size() == length`, `length <= 2^31 - 1`, a direction among the five
enumeration values and `int` coordinates, extracting (`operator>>`) the text
that `operator<<` writes for `s` into any entity `t` succeeds and yields the
length, the direction and the body of `s`, element for element, and the
position `s.body[0]`; the colours of `t` are kept. -/
theorem roundtrip_spec (s t : Snake) (h1 : 1 ≤ s.length) (hb : s.body.length = s.length)
    (hmax : s.length ≤ 2147483647)
    (hd : s.direction = UP ∨ s.direction = DOWN ∨ s.direction = LEFT ∨ s.direction = RIGHT
      ∨ s.direction = NONE)
    (hc : ∀ c ∈ s.body, inIntRange c) :
    ∃ is2 s2, Snake.deserialize (IStream.ofText (Snake.serialize [] s)) t = Except.ok (is2, s2)
      ∧ s2.length = s.length ∧ s2.direction = s.direction ∧ s2.body = s.body
      ∧ s.body[0]? = some s2.position
      ∧ s2.body_color = t.body_color ∧ s2.tail_color = t.tail_color := by
  have hne : s.body ≠ [] := by
    intro h; rw [h] at hb; simp at hb; omega
  obtain ⟨front, rest, hfr⟩ := List.exists_cons_of_ne_nil hne
  have hfront : s.body.head? = some front := by rw [hfr]; rfl
  have hdr : -2147483648 ≤ s.direction ∧ s.direction ≤ 2147483647 := by
    rcases hd with h | h | h | h | h <;> rw [h] <;> decide
  have h := deserialize_spec s.length s.direction s.body [] t hmax hdr.1 hdr.2 hb hc front hfront
  rw [List.append_nil] at h
  rw [serialize_eq, List.nil_append]
  refine ⟨_, _, h, rfl, rfl, rfl, ?_, rfl, rfl⟩
  simp [hfr]

/-- Witness of C1: the saved entity of scenario 4 (length 2, `UP`, body
[(5,5),(5,6)]) read back into a default-constructed entity. -/
theorem roundtrip_spec_witness :
    (1 ≤ scenarioSaved.length ∧ scenarioSaved.body.length = scenarioSaved.length
      ∧ scenarioSaved.length ≤ 2147483647 ∧ (∀ c ∈ scenarioSaved.body, inIntRange c))
    ∧ (∃ is2 s2,
        Snake.deserialize (IStream.ofText (Snake.serialize [] scenarioSaved)) Snake.default
          = Except.ok (is2, s2)
        ∧ s2.length = scenarioSaved.length ∧ s2.direction = scenarioSaved.direction
        ∧ s2.body = scenarioSaved.body ∧ scenarioSaved.body[0]? = some s2.position
        ∧ s2.body_color = Snake.default.body_color ∧ s2.tail_color = Snake.default.tail_color)
    ∧ Snake.deserialize (IStream.ofText "L:2,D:0\nB\n b:5,5\n b:5,6\n".toList) Snake.default
        = Except.ok (⟨"L:2,D:0\nB\n b:5,5\n b:5,6\n".toList, [], false, false⟩,
            ⟨GREEN, DARKGREEN, 2, ⟨5, 5⟩, UP, [⟨5, 5⟩, ⟨5, 6⟩]⟩) :=
  ⟨by decide,
   roundtrip_spec scenarioSaved Snake.default (by decide) (by decide) (by decide) (by decide)
     (by decide),
   by decide⟩

/-- C2 (amended). `move`: for every entity with `length >= 1` and
`body.size() == length` (`length` being a `uint32_t`), `move()` completes; the
new head is the old position plus the unit step of the current direction (no
step for `NONE` or any other value) whenever that sum has both coordinates in
the range of `int`; the new body is the new head followed by the old body
without its last element, so `body[i]` is the old `body[i-1]` for
`1 <= i < length`; `position` is the new head; `length`, `body.size()` and
`direction` are unchanged. -/
theorem move_spec (s : Snake) (h32 : s.length < 4294967296) (h1 : 1 ≤ s.length)
    (hb : s.body.length = s.length) :
    ∃ s2, Snake.move s = Except.ok s2
      ∧ (inIntRange ⟨s.position.x + (specUnitDelta s.direction).x,
            s.position.y + (specUnitDelta s.direction).y⟩ →
          s2.position = ⟨s.position.x + (specUnitDelta s.direction).x,
            s.position.y + (specUnitDelta s.direction).y⟩)
      ∧ s2.body = s2.position :: s.body.dropLast
      ∧ s2.body[0]? = some s2.position
      ∧ (∀ i, 1 ≤ i → i < s.length → s2.body[i]? = s.body[i - 1]?)
      ∧ s2.length = s.length ∧ s2.body.length = s.length ∧ s2.direction = s.direction
      ∧ s2.body_color = s.body_color ∧ s2.tail_color = s.tail_color := by
  refine ⟨_, move_eq s h32 h1 hb, fun hstep => movePosition_eq _ _ hstep, rfl, ?_, ?_, rfl, ?_,
    rfl, rfl, rfl⟩
  · exact List.getElem?_cons_zero
  · intro i hi1 hi2
    obtain ⟨j, rfl⟩ : ∃ j, i = j + 1 := ⟨i - 1, by omega⟩
    show (_ :: s.body.dropLast)[j + 1]? = s.body[j + 1 - 1]?
    rw [List.getElem?_cons_succ, List.dropLast_eq_take, List.getElem?_take, if_pos (by omega)]
    rfl
  · show (_ :: s.body.dropLast).length = s.length
    rw [List.length_cons, List.length_dropLast]
    omega

/-- Witness of C2 (amended): scenario 1, length 3 at (10,10) heading `RIGHT`;
the stepped position (11,10) is in the range of `int`, and the move gives
position (11,10) and body [(11,10),(10,10),(10,10)]. -/
theorem move_spec_witness :
    (scenarioSnake.length < 4294967296 ∧ 1 ≤ scenarioSnake.length
      ∧ scenarioSnake.body.length = scenarioSnake.length
      ∧ inIntRange ⟨scenarioSnake.position.x + (specUnitDelta scenarioSnake.direction).x,
          scenarioSnake.position.y + (specUnitDelta scenarioSnake.direction).y⟩)
    ∧ (∃ s2, Snake.move scenarioSnake = Except.ok s2
        ∧ (inIntRange ⟨scenarioSnake.position.x + (specUnitDelta scenarioSnake.direction).x,
              scenarioSnake.position.y + (specUnitDelta scenarioSnake.direction).y⟩ →
            s2.position = ⟨scenarioSnake.position.x + (specUnitDelta scenarioSnake.direction).x,
              scenarioSnake.position.y + (specUnitDelta scenarioSnake.direction).y⟩)
        ∧ s2.body = s2.position :: scenarioSnake.body.dropLast
        ∧ s2.body[0]? = some s2.position
        ∧ (∀ i, 1 ≤ i → i < scenarioSnake.length → s2.body[i]? = scenarioSnake.body[i - 1]?)
        ∧ s2.length = scenarioSnake.length ∧ s2.body.length = scenarioSnake.length
        ∧ s2.direction = scenarioSnake.direction
        ∧ s2.body_color = scenarioSnake.body_color ∧ s2.tail_color = scenarioSnake.tail_color)
    ∧ Snake.move scenarioSnake = Except.ok scenarioMoved :=
  ⟨by decide, move_spec scenarioSnake (by decide) (by decide) (by decide), by decide⟩

/-- Counterexample to C2 as stated: the one-segment entity at (2147483647,0)
heading `RIGHT` has `length >= 1` and `body.size() == length`; the old position
plus the unit step is (2147483648,0), which no `int` holds, and after `move()`
the head is (-2147483648,0). -/
theorem move_overflow_counterexample :
    (1 ≤ scenarioEdge.length ∧ scenarioEdge.body.length = scenarioEdge.length)
      ∧ Snake.move scenarioEdge
          = Except.ok ⟨GREEN, DARKGREEN, 1, ⟨-2147483648, 0⟩, RIGHT, [⟨-2147483648, 0⟩]⟩
      ∧ (⟨scenarioEdge.position.x + (specUnitDelta scenarioEdge.direction).x,
            scenarioEdge.position.y + (specUnitDelta scenarioEdge.direction).y⟩ : Vector2Int)
          = ⟨2147483648, 0⟩
      ∧ (⟨-2147483648, 0⟩ : Vector2Int) ≠ ⟨2147483648, 0⟩ := by
  decide

/-- C3. `turn`: for every entity whose direction `d` is one of `UP`, `DOWN`,
`LEFT`, `RIGHT` and every request `r` among the five enumeration values, after
`turn(r)` the direction is `d` when `r` is `NONE`, equal to `d` or opposite to
`d`, and is `r` otherwise; length, position, body and colours are unchanged. -/
theorem turn_spec (s : Snake) (r : Direction)
    (hd : s.direction = UP ∨ s.direction = DOWN ∨ s.direction = LEFT ∨ s.direction = RIGHT)
    (hr : r = UP ∨ r = DOWN ∨ r = LEFT ∨ r = RIGHT ∨ r = NONE) :
    (Snake.turn s r).direction
        = (if r = NONE ∨ r = s.direction ∨ r = specOpposite s.direction then s.direction else r)
      ∧ (Snake.turn s r).length = s.length
      ∧ (Snake.turn s r).position = s.position
      ∧ (Snake.turn s r).body = s.body
      ∧ (Snake.turn s r).body_color = s.body_color
      ∧ (Snake.turn s r).tail_color = s.tail_color := by
  obtain ⟨bc, tc, len, pos, d, body⟩ := s
  simp only at hd
  rcases hd with h | h | h | h <;> rcases hr with h2 | h2 | h2 | h2 | h2 <;> subst h <;> subst h2 <;>
    simp +decide [Snake.turn, specOpposite, UP, DOWN, LEFT, RIGHT, NONE]

/-- Witness of C3: scenario 2, heading `RIGHT`, `turn(LEFT)` leaves `RIGHT`,
then `turn(UP)` gives `UP`. -/
theorem turn_spec_witness :
    ((Snake.turn scenarioMoved LEFT).direction
        = (if LEFT = NONE ∨ LEFT = scenarioMoved.direction
              ∨ LEFT = specOpposite scenarioMoved.direction
            then scenarioMoved.direction else LEFT)
      ∧ (Snake.turn scenarioMoved LEFT).length = scenarioMoved.length
      ∧ (Snake.turn scenarioMoved LEFT).position = scenarioMoved.position
      ∧ (Snake.turn scenarioMoved LEFT).body = scenarioMoved.body
      ∧ (Snake.turn scenarioMoved LEFT).body_color = scenarioMoved.body_color
      ∧ (Snake.turn scenarioMoved LEFT).tail_color = scenarioMoved.tail_color)
    ∧ (Snake.turn scenarioMoved LEFT).direction = RIGHT
    ∧ (Snake.turn (Snake.turn scenarioMoved LEFT) UP).direction = UP :=
  ⟨turn_spec scenarioMoved LEFT (by decide) (by decide), by decide, by decide⟩

/-- C4 (amended). Invariant preservation: for every entity satisfying
`body.size() == length`, `body[0] == position` and `length >= 1` (`length`
being a `uint32_t`), `turn(r)` for any `r` and `move()` yield an entity that
satisfies the three again, and so does `grow()` provided `length < 2^32 - 1`;
hence the three hold in every state reached by a finite sequence of these
operations whose number of `grow` calls keeps the length below `2^32`. -/
theorem invariant_preserved (s : Snake) (h32 : s.length < 4294967296) (h : Inv s) :
    (∀ r, Inv (Snake.turn s r))
      ∧ (∃ s2, Snake.move s = Except.ok s2 ∧ Inv s2)
      ∧ (s.length < 4294967295 → ∃ s2, Snake.grow s = Except.ok s2 ∧ Inv s2)
      ∧ (∀ ops : List Op, s.length + countGrow ops < 4294967296 →
          ∃ s2, applyOps ops s = Except.ok s2 ∧ Inv s2) := by
  refine ⟨fun r => turn_inv s r h, ?_, ?_, ?_⟩
  · obtain ⟨s2, h2, hi2, _⟩ := move_inv s h32 h
    exact ⟨s2, h2, hi2⟩
  · intro hmax
    obtain ⟨s2, h2, hi2, _⟩ := grow_inv s hmax h
    exact ⟨s2, h2, hi2⟩
  · intro ops hlen
    obtain ⟨s2, h2, hi2, _⟩ := applyOps_inv ops s h hlen
    exact ⟨s2, h2, hi2⟩

/-- Witness of C4 (amended): the entity of scenario 1. -/
theorem invariant_preserved_witness :
    (scenarioSnake.length < 4294967296 ∧ Inv scenarioSnake)
    ∧ ((∀ r, Inv (Snake.turn scenarioSnake r))
      ∧ (∃ s2, Snake.move scenarioSnake = Except.ok s2 ∧ Inv s2)
      ∧ (scenarioSnake.length < 4294967295 → ∃ s2, Snake.grow scenarioSnake = Except.ok s2 ∧ Inv s2)
      ∧ (∀ ops : List Op, scenarioSnake.length + countGrow ops < 4294967296 →
          ∃ s2, applyOps ops scenarioSnake = Except.ok s2 ∧ Inv s2)) :=
  ⟨by decide, invariant_preserved scenarioSnake (by decide) (by decide)⟩

/-- Counterexample to C4 as stated: the entity built with the largest
`uint32_t` length satisfies the three invariants, and `grow()` turns it into an
entity with `length == 0` and `body.size() == 2^32`, which satisfies neither
`body.size() == length` nor `length >= 1`. -/
theorem grow_invariant_counterexample :
    Inv maxLengthSnake
      ∧ ∃ s2, Snake.grow maxLengthSnake = Except.ok s2
          ∧ s2.length = 0 ∧ s2.body.length = 4294967296 ∧ ¬ Inv s2 := by
  refine ⟨⟨?_, ?_, ?_⟩, _, maxLengthSnake_grow, rfl, ?_, ?_⟩
  · rw [maxLengthSnake_body, maxLengthSnake_length, List.length_replicate]
  · rw [maxLengthSnake_body, List.getElem?_replicate, if_pos (by omega)]; rfl
  · rw [maxLengthSnake_length]; omega
  · show (List.replicate 4294967295 _ ++ [_]).length = 4294967296
    rw [List.length_append, List.length_replicate]; rfl
  · intro hinv
    have h1 : 1 ≤ 0 := hinv.2.2
    omega

/-- C5 (amended). `grow`: for every entity with `length >= 1`,
`body.size() == length` and `length < 2^32 - 1`, `grow()` completes; `length`
is the old length plus 1, the body is the old body with one element appended
that equals the old last element (every index below the old length keeps its
value), and position, direction and colours are unchanged. -/
theorem grow_spec (s : Snake) (h1 : 1 ≤ s.length) (hb : s.body.length = s.length)
    (hmax : s.length < 4294967295) :
    ∃ s2 last, Snake.grow s = Except.ok s2
      ∧ s.body.getLast? = some last
      ∧ s2.length = s.length + 1
      ∧ s2.body = s.body ++ [last]
      ∧ s2.body.length = s.length + 1
      ∧ (∀ i, i < s.length → s2.body[i]? = s.body[i]?)
      ∧ s2.body[s.length]? = some last
      ∧ s2.position = s.position
      ∧ s2.direction = s.direction
      ∧ s2.body_color = s.body_color ∧ s2.tail_color = s.tail_color := by
  have hne : s.body ≠ [] := by
    intro h; rw [h] at hb; simp at hb; omega
  have hl : s.body.getLast? = some (s.body.getLast hne) := List.getLast?_eq_getLast _ hne
  have hmod : (s.length + 1) % 4294967296 = s.length + 1 := Nat.mod_eq_of_lt (by omega)
  refine ⟨_, s.body.getLast hne, grow_eq s _ hl, hl, ?_, rfl, ?_, ?_, ?_, rfl, rfl, rfl, rfl⟩
  · exact hmod
  · simp [hb]
  · intro i hi
    exact List.getElem?_append_left (by omega)
  · show (s.body ++ [s.body.getLast hne])[s.length]? = _
    rw [← hb]
    simp

/-- Witness of C5 (amended): scenario 3, body [(11,10),(10,10),(10,10)]
becomes length 4 with body [(11,10),(10,10),(10,10),(10,10)]. -/
theorem grow_spec_witness :
    (1 ≤ scenarioMoved.length ∧ scenarioMoved.body.length = scenarioMoved.length
      ∧ scenarioMoved.length < 4294967295)
    ∧ (∃ s2 last, Snake.grow scenarioMoved = Except.ok s2
        ∧ scenarioMoved.body.getLast? = some last
        ∧ s2.length = scenarioMoved.length + 1
        ∧ s2.body = scenarioMoved.body ++ [last]
        ∧ s2.body.length = scenarioMoved.length + 1
        ∧ (∀ i, i < scenarioMoved.length → s2.body[i]? = scenarioMoved.body[i]?)
        ∧ s2.body[scenarioMoved.length]? = some last
        ∧ s2.position = scenarioMoved.position
        ∧ s2.direction = scenarioMoved.direction
        ∧ s2.body_color = scenarioMoved.body_color ∧ s2.tail_color = scenarioMoved.tail_color)
    ∧ Snake.grow scenarioMoved
        = Except.ok ⟨GREEN, DARKGREEN, 4, ⟨11, 10⟩, RIGHT,
            [⟨11, 10⟩, ⟨10, 10⟩, ⟨10, 10⟩, ⟨10, 10⟩]⟩ :=
  ⟨by decide, grow_spec scenarioMoved (by decide) (by decide) (by decide), by decide⟩

/-- Counterexample to C5 as stated: the entity built with the largest
`uint32_t` length has `length >= 1` and `body.size() == length`, and after
`grow()` its length is 0, not the old length plus 1. -/
theorem grow_length_counterexample :
    1 ≤ maxLengthSnake.length ∧ maxLengthSnake.body.length = maxLengthSnake.length
      ∧ ∃ s2, Snake.grow maxLengthSnake = Except.ok s2 ∧ s2.length = 0
          ∧ s2.length ≠ maxLengthSnake.length + 1 := by
  refine ⟨?_, ?_, _, maxLengthSnake_grow, rfl, ?_⟩
  · rw [maxLengthSnake_length]; omega
  · rw [maxLengthSnake_body, maxLengthSnake_length, List.length_replicate]
  · show 0 ≠ maxLengthSnake.length + 1
    omega

/-- C6. `hasCollidedWithItself`: for every entity, whether its body is empty
or not and so in particular for every entity with a non-empty body, the result
is true if and only if there is an index `i` with `1 <= i < body.size()` and
`body[i] == body[0]`. -/
theorem hasCollidedWithItself_iff (s : Snake) :
    Snake.hasCollidedWithItself s = true
      ↔ ∃ i, 1 ≤ i ∧ i < s.body.length ∧ s.body[i]? = s.body[0]? := by
  unfold Snake.hasCollidedWithItself
  rw [selfScan_iff]
  have h0 : s.body.head? = s.body[0]? := by cases s.body <;> simp
  constructor
  · rintro ⟨j, hj, hk, he⟩
    exact ⟨j, by omega, hj, by rw [he, h0]⟩
  · rintro ⟨j, h1, hj, he⟩
    exact ⟨j, hj, by omega, by rw [he, h0]⟩

/-- Witness of C6: scenario 5, body [(7,7),(6,7),(7,7)] gives true and body
[(7,7),(6,7),(5,7)] gives false. -/
theorem hasCollidedWithItself_iff_witness :
    (Snake.hasCollidedWithItself scenarioCollided = true
        ↔ ∃ i, 1 ≤ i ∧ i < scenarioCollided.body.length
            ∧ scenarioCollided.body[i]? = scenarioCollided.body[0]?)
    ∧ Snake.hasCollidedWithItself scenarioCollided = true
    ∧ Snake.hasCollidedWithItself scenarioClear = false :=
  ⟨hasCollidedWithItself_iff scenarioCollided, by decide, by decide⟩

/-- C7. `hasCollidedWithSnake`: for every entity `A` with `body[0] == position`
and every entity `B`, `A.hasCollidedWithSnake(B)` completes and is true if and
only if `B.body` contains `A.position`; the result depends on `B` only through
`B.body`. The method returns a boolean and nothing else, so neither entity is
modified. -/
theorem hasCollidedWithSnake_spec (A B : Snake) (hA : A.body[0]? = some A.position) :
    Snake.hasCollidedWithSnake A B = Except.ok (decide (A.position ∈ B.body))
      ∧ (Snake.hasCollidedWithSnake A B = Except.ok true ↔ A.position ∈ B.body)
      ∧ ∀ B2 : Snake, B2.body = B.body →
          Snake.hasCollidedWithSnake A B2 = Snake.hasCollidedWithSnake A B := by
  have h0 : A.body.head? = some A.position := by
    rw [← hA]; cases A.body <;> simp
  refine ⟨?_, ?_, ?_⟩
  · unfold Snake.hasCollidedWithSnake
    rw [h0, otherScan_some]
  · unfold Snake.hasCollidedWithSnake
    rw [h0, otherScan_some]
    simp
  · intro B2 hB
    unfold Snake.hasCollidedWithSnake
    rw [hB]

/-- Witness of C7: scenario 6, `A` has head (4,4) and `B` has (4,4) at index 1;
`A` against `B` is true while `B` against `A` is false. -/
theorem hasCollidedWithSnake_spec_witness :
    scenarioA.body[0]? = some scenarioA.position
    ∧ (Snake.hasCollidedWithSnake scenarioA scenarioB
          = Except.ok (decide (scenarioA.position ∈ scenarioB.body))
        ∧ (Snake.hasCollidedWithSnake scenarioA scenarioB = Except.ok true
            ↔ scenarioA.position ∈ scenarioB.body)
        ∧ ∀ B2 : Snake, B2.body = scenarioB.body →
            Snake.hasCollidedWithSnake scenarioA B2 = Snake.hasCollidedWithSnake scenarioA scenarioB)
    ∧ Snake.hasCollidedWithSnake scenarioA scenarioB = Except.ok true
    ∧ Snake.hasCollidedWithSnake scenarioB scenarioA = Except.ok false :=
  ⟨by decide, hasCollidedWithSnake_spec scenarioA scenarioB (by decide), by decide, by decide⟩

/-- C8. Construction and reset: for every length `N` that is a 32-bit unsigned
value, every position `P` and direction `D`, the five-argument constructor (with
any colours) and `reset(N, P, D)` applied to any prior entity yield
`length == N`, `position == P`, `direction == D` and a body of exactly `N`
elements, each equal to `P`. -/
theorem construct_reset_spec (N : Nat) (P : Vector2Int) (D : Direction) (hN : N < 4294967296) :
    (∀ bc tc : Color,
      (Snake.construct N P D bc tc).length = N ∧ (Snake.construct N P D bc tc).position = P
      ∧ (Snake.construct N P D bc tc).direction = D
      ∧ (Snake.construct N P D bc tc).body.length = N
      ∧ (∀ c ∈ (Snake.construct N P D bc tc).body, c = P)
      ∧ (Snake.construct N P D bc tc).body = List.replicate N P)
    ∧ (∀ s : Snake,
      (Snake.reset s N P D).length = N ∧ (Snake.reset s N P D).position = P
      ∧ (Snake.reset s N P D).direction = D
      ∧ (Snake.reset s N P D).body.length = N
      ∧ (∀ c ∈ (Snake.reset s N P D).body, c = P)
      ∧ (Snake.reset s N P D).body = List.replicate N P) := by
  have hmod : N % 4294967296 = N := Nat.mod_eq_of_lt hN
  constructor
  · intro bc tc
    simp [Snake.construct, hmod]
  · intro s
    simp [Snake.reset, hmod]

/-- Witness of C8: `N = 3`, `P = (10,10)`, `D = RIGHT` gives the body
[(10,10),(10,10),(10,10)], from the constructor and from a reset of an entity
that had another body. -/
theorem construct_reset_spec_witness :
    3 < 4294967296
    ∧ ((∀ bc tc : Color,
        (Snake.construct 3 ⟨10, 10⟩ RIGHT bc tc).length = 3
        ∧ (Snake.construct 3 ⟨10, 10⟩ RIGHT bc tc).position = ⟨10, 10⟩
        ∧ (Snake.construct 3 ⟨10, 10⟩ RIGHT bc tc).direction = RIGHT
        ∧ (Snake.construct 3 ⟨10, 10⟩ RIGHT bc tc).body.length = 3
        ∧ (∀ c ∈ (Snake.construct 3 ⟨10, 10⟩ RIGHT bc tc).body, c = ⟨10, 10⟩)
        ∧ (Snake.construct 3 ⟨10, 10⟩ RIGHT bc tc).body = List.replicate 3 ⟨10, 10⟩)
      ∧ (∀ s : Snake,
        (Snake.reset s 3 ⟨10, 10⟩ RIGHT).length = 3
        ∧ (Snake.reset s 3 ⟨10, 10⟩ RIGHT).position = ⟨10, 10⟩
        ∧ (Snake.reset s 3 ⟨10, 10⟩ RIGHT).direction = RIGHT
        ∧ (Snake.reset s 3 ⟨10, 10⟩ RIGHT).body.length = 3
        ∧ (∀ c ∈ (Snake.reset s 3 ⟨10, 10⟩ RIGHT).body, c = ⟨10, 10⟩)
        ∧ (Snake.reset s 3 ⟨10, 10⟩ RIGHT).body = List.replicate 3 ⟨10, 10⟩))
    ∧ (Snake.construct 3 ⟨10, 10⟩ RIGHT GREEN DARKGREEN).body = [⟨10, 10⟩, ⟨10, 10⟩, ⟨10, 10⟩]
    ∧ (Snake.reset scenarioCollided 3 ⟨10, 10⟩ RIGHT).body = [⟨10, 10⟩, ⟨10, 10⟩, ⟨10, 10⟩] :=
  ⟨by decide, construct_reset_spec 3 ⟨10, 10⟩ RIGHT (by decide), by decide, by decide⟩

/-- C9. Serialization format: for every entity with `body.size() == length`,
`operator<<` appends to the stream exactly `L:` + decimal(length) + `,D:` +
decimal(direction ordinal) + newline, then `B` + newline, then for each body
element in order one line ` b:` + decimal(x) + `,` + decimal(y) + newline, and
nothing else: there are exactly `length` body lines, and `length + 2` newline
characters in all. -/
theorem serialize_format (os : List Char) (s : Snake) (hb : s.body.length = s.length) :
    Snake.serialize os s
        = os ++ ("L:".toList ++ decimal (Int.ofNat s.length) ++ ",D:".toList ++ decimal s.direction
            ++ "\n".toList ++ "B".toList ++ "\n".toList ++ specBodyLines s.body)
      ∧ List.count '\n' (specBodyLines s.body) = s.length
      ∧ List.count '\n' (Snake.serialize [] s) = s.length + 2 := by
  refine ⟨?_, ?_, ?_⟩
  · rw [serialize_eq]
    have h1 : "L:".toList = ['L', ':'] := rfl
    have h2 : ",D:".toList = [',', 'D', ':'] := rfl
    have h3 : "B".toList = ['B'] := rfl
    have h4 : "\n".toList = ['\n'] := rfl
    simp [specText, specHeader, h1, h2, h3, h4]
  · rw [count_newline_specBodyLines, hb]
  · rw [serialize_eq, List.nil_append, count_newline_specText, hb]

/-- Witness of C9: scenario 4, length 2, direction `UP` (ordinal 0), body
[(5,5),(5,6)] is written as the four lines `L:2,D:0`, `B`, ` b:5,5`, ` b:5,6`. -/
theorem serialize_format_witness :
    scenarioSaved.body.length = scenarioSaved.length
    ∧ (Snake.serialize [] scenarioSaved
          = [] ++ ("L:".toList ++ decimal (Int.ofNat scenarioSaved.length) ++ ",D:".toList
              ++ decimal scenarioSaved.direction
              ++ "\n".toList ++ "B".toList ++ "\n".toList ++ specBodyLines scenarioSaved.body)
        ∧ List.count '\n' (specBodyLines scenarioSaved.body) = scenarioSaved.length
        ∧ List.count '\n' (Snake.serialize [] scenarioSaved) = scenarioSaved.length + 2)
    ∧ Snake.serialize [] scenarioSaved = "L:2,D:0\nB\n b:5,5\n b:5,6\n".toList :=
  ⟨by decide, serialize_format [] scenarioSaved (by decide), by decide⟩

/-- C10 (amended). Deserialization reads by declared length: for every text
made of a header line `L:N,D:d` with `1 <= N <= 2^31 - 1` and `d` in `0..4`, a
line `B`, and then `M >= N` body lines ` b:x,y` with `int` coordinates,
`operator>>` applied to any entity succeeds and yields `length == N`,
`direction == d`, a body of exactly `N` elements equal to the coordinates of
the first `N` body lines in order, and the position of the first body line;
the remaining `M - N` lines stay unread in the stream, the previous body is
discarded and the colours are kept. -/
theorem deserialize_declared_length (N : Nat) (d : Int) (cs : List Vector2Int) (t : Snake)
    (h1 : 1 ≤ N) (hN : N ≤ 2147483647) (hd : 0 ≤ d ∧ d ≤ 4) (hM : N ≤ cs.length)
    (hc : ∀ c ∈ cs, inIntRange c) :
    ∃ is2 s2, Snake.deserialize (IStream.ofText (specText N d cs)) t = Except.ok (is2, s2)
      ∧ s2.length = N ∧ s2.direction = d
      ∧ s2.body = cs.take N ∧ s2.body.length = N
      ∧ cs[0]? = some s2.position
      ∧ is2.rest = specBodyLines (cs.drop N)
      ∧ s2.body_color = t.body_color ∧ s2.tail_color = t.tail_color := by
  have hne : cs ≠ [] := by
    intro h; rw [h] at hM; simp at hM; omega
  obtain ⟨front, rest, hfr⟩ := List.exists_cons_of_ne_nil hne
  have hfront : (cs.take N).head? = some front := by
    obtain ⟨k, hk⟩ : ∃ k, N = k + 1 := ⟨N - 1, by omega⟩
    rw [hfr, hk]; rfl
  have hlen : (cs.take N).length = N := by rw [List.length_take]; omega
  have hsplit : specText N d cs = specText N d (cs.take N) ++ specBodyLines (cs.drop N) := by
    have : specBodyLines cs = specBodyLines (cs.take N) ++ specBodyLines (cs.drop N) := by
      rw [← specBodyLines_append, List.take_append_drop]
    simp [specText, this]
  have h := deserialize_spec N d (cs.take N) (specBodyLines (cs.drop N)) t hN (by omega) (by omega)
    hlen (fun c hcm => hc c (List.mem_of_mem_take hcm)) front hfront
  rw [← hsplit] at h
  refine ⟨_, _, h, rfl, rfl, rfl, hlen, ?_, rfl, rfl, rfl⟩
  simp [hfr]

/-- Witness of C10 (amended): declared length 2 followed by three body lines,
read into the self-colliding entity of scenario 5; the third line stays in the
stream. -/
theorem deserialize_declared_length_witness :
    (1 ≤ 2 ∧ 2 ≤ 2147483647 ∧ ((0 : Int) ≤ 0 ∧ (0 : Int) ≤ 4) ∧ 2 ≤ scenarioLines.length
      ∧ (∀ c ∈ scenarioLines, inIntRange c))
    ∧ (∃ is2 s2,
        Snake.deserialize (IStream.ofText (specText 2 0 scenarioLines)) scenarioCollided
          = Except.ok (is2, s2)
        ∧ s2.length = 2 ∧ s2.direction = 0
        ∧ s2.body = scenarioLines.take 2 ∧ s2.body.length = 2
        ∧ scenarioLines[0]? = some s2.position
        ∧ is2.rest = specBodyLines (scenarioLines.drop 2)
        ∧ s2.body_color = scenarioCollided.body_color
        ∧ s2.tail_color = scenarioCollided.tail_color)
    ∧ specText 2 0 scenarioLines = "L:2,D:0\nB\n b:5,5\n b:-5,6\n b:9,9\n".toList
    ∧ Snake.deserialize (IStream.ofText "L:2,D:0\nB\n b:5,5\n b:-5,6\n b:9,9\n".toList)
        scenarioCollided
        = Except.ok (⟨"L:2,D:0\nB\n b:5,5\n b:-5,6\n b:9,9\n".toList, " b:9,9\n".toList, false, false⟩,
            ⟨GREEN, DARKGREEN, 2, ⟨5, 5⟩, UP, [⟨5, 5⟩, ⟨-5, 6⟩]⟩) :=
  ⟨by decide,
   deserialize_declared_length 2 0 scenarioLines scenarioCollided (by decide) (by decide)
     (by decide) (by decide) (by decide),
   by decide, by decide⟩

/-- Counterexample to C10 as stated: the text with header `L:2147483648,D:0`, a
line `B` and 2147483648 body lines ` b:0,0` meets every condition of the claim
(`N >= 1`, `d` in `0..4`, `M >= N` well-formed body lines), and `operator>>`
yields no entity: `std::stoi` throws `std::out_of_range` on the length. -/
theorem deserialize_length_counterexample :
    1 ≤ 2147483648 ∧ ((0 : Int) ≤ 0 ∧ (0 : Int) ≤ 4) ∧ 2147483648 ≤ hugeBodyCells.length
      ∧ (∀ c ∈ hugeBodyCells, inIntRange c)
      ∧ Snake.deserialize (IStream.ofText (specText 2147483648 0 hugeBodyCells)) Snake.default
          = Except.error Fault.out_of_range := by
  refine ⟨by omega, by omega, ?_, ?_, ?_⟩
  · unfold hugeBodyCells
    rw [List.length_replicate]
  · intro c hc
    unfold hugeBodyCells at hc
    rw [List.eq_of_mem_replicate hc]
    decide
  · have hh : Snake.readHeader ((IStream.ofText (specHeader 2147483648 0)).rest.length + 1)
        (IStream.ofText (specHeader 2147483648 0)) (specHeader 2147483648 0) Snake.default
        = Except.error Fault.out_of_range := by decide
    unfold Snake.deserialize
    have g1 := getline_header 2147483648 0 ('B' :: '\n' :: specBodyLines hugeBodyCells)
    have ht : specText 2147483648 0 hugeBodyCells
        = specHeader 2147483648 0 ++ '\n' :: ('B' :: '\n' :: specBodyLines hugeBodyCells) := rfl
    rw [ht]
    simp only [g1]
    rw [hh]

/-- C11 (amended). Direction ordinal outside `0..4`: for every otherwise
well-formed save text (header `L:N,D:d` with `1 <= N <= 2^31 - 1`, the line
`B`, `N` body lines with `int` coordinates) whose direction code `d` is an
`int` outside the five ordinals, `operator>>` reports no failure: it succeeds
and yields an entity whose direction holds the ordinal `d` as read, with the
declared length and body. -/
theorem deserialize_direction_unchecked (N : Nat) (d : Int) (cs : List Vector2Int) (t : Snake)
    (h1 : 1 ≤ N) (hN : N ≤ 2147483647) (hout : d < 0 ∨ 4 < d)
    (hlo : -2147483648 ≤ d) (hhi : d ≤ 2147483647)
    (hlen : cs.length = N) (hc : ∀ c ∈ cs, inIntRange c) :
    ∃ is2 s2, Snake.deserialize (IStream.ofText (specText N d cs)) t = Except.ok (is2, s2)
      ∧ s2.direction = d
      ∧ ¬ (s2.direction = UP ∨ s2.direction = DOWN ∨ s2.direction = LEFT
            ∨ s2.direction = RIGHT ∨ s2.direction = NONE)
      ∧ s2.length = N ∧ s2.body = cs := by
  have hne : cs ≠ [] := by
    intro h; rw [h] at hlen; simp at hlen; omega
  obtain ⟨front, rest, hfr⟩ := List.exists_cons_of_ne_nil hne
  have hfront : cs.head? = some front := by rw [hfr]; rfl
  have h := deserialize_spec N d cs [] t hN hlo hhi hlen hc front hfront
  rw [List.append_nil] at h
  refine ⟨_, _, h, rfl, ?_, rfl, rfl⟩
  show ¬ (d = UP ∨ d = DOWN ∨ d = LEFT ∨ d = RIGHT ∨ d = NONE)
  unfold UP DOWN LEFT RIGHT NONE
  rintro (h | h | h | h | h) <;> rw [h] at hout <;> omega

/-- Witness of C11 (amended): the text `L:1,D:7`, `B`, ` b:0,0`. -/
theorem deserialize_direction_unchecked_witness :
    (1 ≤ 1 ∧ 1 ≤ 2147483647 ∧ ((7 : Int) < 0 ∨ (4 : Int) < 7)
      ∧ (-2147483648 : Int) ≤ 7 ∧ (7 : Int) ≤ 2147483647
      ∧ [Vector2Int.mk 0 0].length = 1 ∧ (∀ c ∈ [Vector2Int.mk 0 0], inIntRange c))
    ∧ (∃ is2 s2,
        Snake.deserialize (IStream.ofText (specText 1 7 [Vector2Int.mk 0 0])) Snake.default
          = Except.ok (is2, s2)
        ∧ s2.direction = 7
        ∧ ¬ (s2.direction = UP ∨ s2.direction = DOWN ∨ s2.direction = LEFT
              ∨ s2.direction = RIGHT ∨ s2.direction = NONE)
        ∧ s2.length = 1 ∧ s2.body = [Vector2Int.mk 0 0])
    ∧ specText 1 7 [Vector2Int.mk 0 0] = scenarioBadDirection :=
  ⟨by decide,
   deserialize_direction_unchecked 1 7 [Vector2Int.mk 0 0] Snake.default (by decide) (by decide)
     (by decide) (by decide) (by decide) (by decide) (by decide),
   by decide⟩

/-- Counterexample to C11 as stated: the well-formed text `L:1,D:7`, `B`,
` b:0,0` is read without any failure and yields an entity whose direction is
the out-of-range value 7. -/
theorem deserialize_bad_direction_counterexample :
    Snake.deserialize (IStream.ofText scenarioBadDirection) Snake.default
        = Except.ok (⟨scenarioBadDirection, [], false, false⟩,
            ⟨GREEN, DARKGREEN, 1, ⟨0, 0⟩, 7, [⟨0, 0⟩]⟩)
      ∧ ¬ ((7 : Direction) = UP ∨ (7 : Direction) = DOWN ∨ (7 : Direction) = LEFT
            ∨ (7 : Direction) = RIGHT ∨ (7 : Direction) = NONE) := by
  decide

/-- C12 (amended). Direction is never `NONE` unless the caller passes it: for
an entity built by the five-argument constructor with a direction argument
other than `NONE`, or by the default constructor, every state reached by a
finite sequence of `turn` (any request), `move`, `grow` and `reset` calls whose
`reset` direction arguments are other than `NONE` has a direction that is not
`NONE`. -/
theorem direction_stays_not_none (N : Nat) (P : Vector2Int) (D : Direction) (bc tc : Color)
    (calls : List Call) (hD : D ≠ NONE) (hr : resetsAvoidNone calls) :
    (∀ s2, applyCalls calls (Snake.construct N P D bc tc) = Except.ok s2 → s2.direction ≠ NONE)
      ∧ (∀ s2, applyCalls calls Snake.default = Except.ok s2 → s2.direction ≠ NONE) := by
  constructor
  · intro s2 h
    exact applyCalls_direction calls _ s2 hD hr h
  · intro s2 h
    exact applyCalls_direction calls _ s2 (by decide) hr h

/-- Witness of C12 (amended): the entity of scenario 1 and a sequence with one
call of each kind, which completes and ends heading `LEFT`. -/
theorem direction_stays_not_none_witness :
    (RIGHT ≠ NONE ∧ resetsAvoidNone scenarioCalls)
    ∧ ((∀ s2, applyCalls scenarioCalls (Snake.construct 3 ⟨10, 10⟩ RIGHT GREEN DARKGREEN)
            = Except.ok s2 → s2.direction ≠ NONE)
      ∧ (∀ s2, applyCalls scenarioCalls Snake.default = Except.ok s2 → s2.direction ≠ NONE))
    ∧ applyCalls scenarioCalls (Snake.construct 3 ⟨10, 10⟩ RIGHT GREEN DARKGREEN)
        = Except.ok ⟨GREEN, DARKGREEN, 2, ⟨0, 1⟩, LEFT, [⟨0, 1⟩, ⟨1, 1⟩]⟩ :=
  ⟨by decide,
   direction_stays_not_none 3 ⟨10, 10⟩ RIGHT GREEN DARKGREEN scenarioCalls (by decide) (by decide),
   by decide⟩

/-- Counterexample to C12 as stated: the five-argument constructor called with
the direction `NONE` yields an entity whose direction is `NONE`, `turn(NONE)`
and `move()` leave it so, and `reset` with the direction `NONE` does the same
to the entity of scenario 1. -/
theorem direction_none_counterexample :
    (Snake.construct 3 ⟨10, 10⟩ NONE GREEN DARKGREEN).direction = NONE
      ∧ applyCalls [Call.turn NONE, Call.move] (Snake.construct 3 ⟨10, 10⟩ NONE GREEN DARKGREEN)
          = Except.ok ⟨GREEN, DARKGREEN, 3, ⟨10, 10⟩, NONE, [⟨10, 10⟩, ⟨10, 10⟩, ⟨10, 10⟩]⟩
      ∧ (Snake.reset scenarioSnake 3 ⟨10, 10⟩ NONE).direction = NONE := by
  decide

/-- C13 (amended). Length is at least 1 when the caller asks for it: every
entity produced by the five-argument constructor with a length argument `N`,
`1 <= N < 2^32`, and every state reached from it by a finite sequence of
`turn`, `move`, `grow` (called while `length < 2^32 - 1`) and `reset` (called
with a length argument of at least 1) is reached without a fault and satisfies
`length >= 1`, `body.size() == length` and `body[0] == position`. -/
theorem length_stays_positive (N : Nat) (P : Vector2Int) (D : Direction) (bc tc : Color)
    (calls : List Call) (h1 : 1 ≤ N) (hN : N < 4294967296)
    (hok : lengthStaysPositive N calls = true) :
    Inv (Snake.construct N P D bc tc)
      ∧ ∃ s2, applyCalls calls (Snake.construct N P D bc tc) = Except.ok s2 ∧ Inv s2 := by
  have hinv := construct_inv N P D bc tc h1 hN
  have hlen : (Snake.construct N P D bc tc).length = N := Nat.mod_eq_of_lt hN
  obtain ⟨s2, h2, hi2, _⟩ := applyCalls_inv calls _ hinv (by rw [hlen]; exact hN)
    (by rw [hlen]; exact hok)
  exact ⟨hinv, s2, h2, hi2⟩

/-- Witness of C13 (amended): the entity of scenario 1 and a sequence with one
call of each kind. -/
theorem length_stays_positive_witness :
    (1 ≤ 3 ∧ 3 < 4294967296 ∧ lengthStaysPositive 3 scenarioCalls = true)
    ∧ (Inv (Snake.construct 3 ⟨10, 10⟩ RIGHT GREEN DARKGREEN)
      ∧ ∃ s2, applyCalls scenarioCalls (Snake.construct 3 ⟨10, 10⟩ RIGHT GREEN DARKGREEN)
            = Except.ok s2 ∧ Inv s2) :=
  ⟨by decide,
   length_stays_positive 3 ⟨10, 10⟩ RIGHT GREEN DARKGREEN scenarioCalls (by decide) (by decide)
     (by decide)⟩

/-- Counterexample to C13 as stated: the default constructor `Snake()` yields
length 0 and an empty body, and so does the five-argument constructor called
with length 0; neither satisfies `length >= 1` nor `body[0] == position`. -/
theorem default_length_counterexample :
    Snake.default.length = 0 ∧ Snake.default.body = [] ∧ ¬ Inv Snake.default
      ∧ (Snake.construct 0 ⟨5, 5⟩ UP GREEN DARKGREEN).length = 0
      ∧ ¬ Inv (Snake.construct 0 ⟨5, 5⟩ UP GREEN DARKGREEN) := by
  decide

/-- C14. No reversal with one turn per tick: for every entity `s` with
`length >= 2` (a `uint32_t`), `body.size() == length`, `body[0] == position`
and a direction among `UP`, `DOWN`, `LEFT`, `RIGHT`, and every request `r`
among the five enumeration values, `s1 = move(s)` and `s2 = move(turn(s1, r))`
both complete, `s1.body[1]` is the cell the head occupied before the first
move, and the head of `s2` differs from it. -/
theorem no_reversal_one_turn (s : Snake) (r : Direction) (h32 : s.length < 4294967296)
    (h2 : 2 ≤ s.length) (hb : s.body.length = s.length) (hp : s.body[0]? = some s.position)
    (hd : s.direction = UP ∨ s.direction = DOWN ∨ s.direction = LEFT ∨ s.direction = RIGHT)
    (hr : r = UP ∨ r = DOWN ∨ r = LEFT ∨ r = RIGHT ∨ r = NONE) :
    ∃ s1 s2, Snake.move s = Except.ok s1 ∧ Snake.move (Snake.turn s1 r) = Except.ok s2
      ∧ s1.body[1]? = some s.position
      ∧ s2.body[0]? = some s2.position
      ∧ some s2.position ≠ s1.body[1]? := by
  have hm1 := move_eq s h32 (by omega) hb
  obtain ⟨hl, hpos, hbody⟩ := turn_fields
    { s with position := Snake.movePosition s.direction s.position
             body := Snake.movePosition s.direction s.position :: s.body.dropLast } r
  have hlen1 : (Snake.movePosition s.direction s.position :: s.body.dropLast).length = s.length := by
    rw [List.length_cons, List.length_dropLast]; omega
  have hm2 := move_eq (Snake.turn { s with
      position := Snake.movePosition s.direction s.position
      body := Snake.movePosition s.direction s.position :: s.body.dropLast } r)
    (by rw [hl]; exact h32) (by rw [hl]; show 1 ≤ s.length; omega) (by rw [hbody, hl]; exact hlen1)
  have hb1 : (Snake.movePosition s.direction s.position :: s.body.dropLast)[1]? = some s.position := by
    rw [List.getElem?_cons_succ, List.dropLast_eq_take, List.getElem?_take, if_pos (by omega)]
    exact hp
  refine ⟨_, _, hm1, hm2, hb1, List.getElem?_cons_zero, ?_⟩
  show some _ ≠ (Snake.movePosition s.direction s.position :: s.body.dropLast)[1]?
  rw [hb1, hpos]
  intro h
  exact two_steps_ne { s with
      position := Snake.movePosition s.direction s.position
      body := Snake.movePosition s.direction s.position :: s.body.dropLast } r s.position hd hr
    (Option.some.inj h)

/-- Witness of C14: the straight entity of length 3 heading `RIGHT` and the
request `LEFT`; the head goes from (10,10) to (11,10) and then to (12,10). -/
theorem no_reversal_one_turn_witness :
    (scenarioStraight.length < 4294967296 ∧ 2 ≤ scenarioStraight.length
      ∧ scenarioStraight.body.length = scenarioStraight.length
      ∧ scenarioStraight.body[0]? = some scenarioStraight.position)
    ∧ (∃ s1 s2, Snake.move scenarioStraight = Except.ok s1
        ∧ Snake.move (Snake.turn s1 LEFT) = Except.ok s2
        ∧ s1.body[1]? = some scenarioStraight.position
        ∧ s2.body[0]? = some s2.position
        ∧ some s2.position ≠ s1.body[1]?)
    ∧ Snake.move scenarioStraight
        = Except.ok ⟨GREEN, DARKGREEN, 3, ⟨11, 10⟩, RIGHT, [⟨11, 10⟩, ⟨10, 10⟩, ⟨9, 10⟩]⟩
    ∧ Snake.move (Snake.turn
          ⟨GREEN, DARKGREEN, 3, ⟨11, 10⟩, RIGHT, [⟨11, 10⟩, ⟨10, 10⟩, ⟨9, 10⟩]⟩ LEFT)
        = Except.ok ⟨GREEN, DARKGREEN, 3, ⟨12, 10⟩, RIGHT, [⟨12, 10⟩, ⟨11, 10⟩, ⟨10, 10⟩]⟩ :=
  ⟨by decide,
   no_reversal_one_turn scenarioStraight LEFT (by decide) (by decide) (by decide) (by decide)
     (by decide) (by decide),
   by decide, by decide⟩

/-- C15, the code at the failing input: the straight entity of length 3 heading
`RIGHT` meets the conditions of the claim; after `move()`, `turn(UP)`,
`turn(LEFT)`, `move()` its head is (10,10), the cell `s1.body[1]` that the head
occupied before the first move, and the entity collides with itself. -/
theorem reversal_after_two_turns :
    (2 ≤ scenarioStraight.length ∧ scenarioStraight.body.length = scenarioStraight.length
      ∧ scenarioStraight.body[0]? = some scenarioStraight.position
      ∧ scenarioStraight.direction = RIGHT)
    ∧ Snake.move scenarioStraight
        = Except.ok ⟨GREEN, DARKGREEN, 3, ⟨11, 10⟩, RIGHT, [⟨11, 10⟩, ⟨10, 10⟩, ⟨9, 10⟩]⟩
    ∧ Snake.turn (Snake.turn
          ⟨GREEN, DARKGREEN, 3, ⟨11, 10⟩, RIGHT, [⟨11, 10⟩, ⟨10, 10⟩, ⟨9, 10⟩]⟩ UP) LEFT
        = ⟨GREEN, DARKGREEN, 3, ⟨11, 10⟩, LEFT, [⟨11, 10⟩, ⟨10, 10⟩, ⟨9, 10⟩]⟩
    ∧ Snake.move ⟨GREEN, DARKGREEN, 3, ⟨11, 10⟩, LEFT, [⟨11, 10⟩, ⟨10, 10⟩, ⟨9, 10⟩]⟩
        = Except.ok ⟨GREEN, DARKGREEN, 3, ⟨10, 10⟩, LEFT, [⟨10, 10⟩, ⟨11, 10⟩, ⟨10, 10⟩]⟩
    ∧ Snake.hasCollidedWithItself
          ⟨GREEN, DARKGREEN, 3, ⟨10, 10⟩, LEFT, [⟨10, 10⟩, ⟨11, 10⟩, ⟨10, 10⟩]⟩ = true := by
  decide

/-- C16. The bit-parity test equals the axis lookup: for every pair `(a, b)`
of directions among `UP`, `DOWN`, `LEFT`, `RIGHT`, `((a XOR b) >> 1) == 0` if
and only if `a` and `b` have the same axis; for the current direction `NONE`
the test `((r XOR NONE) >> 1)` is non-zero for each of the four directions `r`;
and `turn` as coded agrees with `turn` re-implemented with the axis lookup on
every current direction and every request among the five values. -/
theorem turn_refines_axis_lookup :
    (∀ a ∈ [UP, DOWN, LEFT, RIGHT], ∀ b ∈ [UP, DOWN, LEFT, RIGHT],
        (Int.shiftRight (Int.xor a b) 1 = 0 ↔ specAxis a = specAxis b))
      ∧ (∀ r ∈ [UP, DOWN, LEFT, RIGHT], Int.shiftRight (Int.xor r NONE) 1 ≠ 0)
      ∧ (∀ (s : Snake) (r : Direction), s.direction ∈ [UP, DOWN, LEFT, RIGHT, NONE] →
          r ∈ [UP, DOWN, LEFT, RIGHT, NONE] → Snake.turn s r = specTurn s r) := by
  refine ⟨by decide, by decide, ?_⟩
  intro s r hd hr
  obtain ⟨bc, tc, len, pos, d, body⟩ := s
  simp only [List.mem_cons, List.mem_singleton, List.not_mem_nil, or_false] at hd hr
  rcases hd with h | h | h | h | h <;> rcases hr with h2 | h2 | h2 | h2 | h2 <;> subst h <;>
    subst h2 <;> simp +decide [Snake.turn, specTurn, specAxis, UP, DOWN, LEFT, RIGHT, NONE]

/-- Instance of C16: on the entity of scenario 2 (heading `RIGHT`) the coded
`turn` and the axis lookup both reject `LEFT` and both accept `UP`. -/
theorem turn_refines_axis_lookup_witness :
    Snake.turn scenarioMoved LEFT = specTurn scenarioMoved LEFT
      ∧ Snake.turn scenarioMoved UP = specTurn scenarioMoved UP
      ∧ (Snake.turn scenarioMoved LEFT).direction = RIGHT
      ∧ (specTurn scenarioMoved UP).direction = UP :=
  ⟨turn_refines_axis_lookup.2.2 scenarioMoved LEFT (by decide) (by decide),
   turn_refines_axis_lookup.2.2 scenarioMoved UP (by decide) (by decide),
   by decide, by decide⟩

/-- C17 (amended). Self-collision at spawn: immediately after construction or
reset with a length `N` (a 32-bit unsigned value), any position `P` and any
direction `D`, `hasCollidedWithItself()` returns true exactly when `N >= 2`; it
returns false for `N = 0` and `N = 1`. -/
theorem spawn_collision (N : Nat) (P : Vector2Int) (D : Direction) (hN : N < 4294967296) :
    (∀ bc tc : Color,
        Snake.hasCollidedWithItself (Snake.construct N P D bc tc) = decide (2 ≤ N))
      ∧ (∀ s : Snake, Snake.hasCollidedWithItself (Snake.reset s N P D) = decide (2 ≤ N)) := by
  have hmod : N % 4294967296 = N := Nat.mod_eq_of_lt hN
  constructor
  · intro bc tc
    show Snake.selfScan (List.replicate (N % 4294967296) P) 0
      (List.replicate (N % 4294967296) P) = _
    rw [hmod, selfScan_replicate]
  · intro s
    show Snake.selfScan ([] ++ List.replicate (N % 4294967296 - 0) P) 0
      ([] ++ List.replicate (N % 4294967296 - 0) P) = _
    rw [hmod, List.nil_append, Nat.sub_zero, selfScan_replicate]

/-- Witness of C17 (amended): length 3 gives true, from the constructor and
from a reset. -/
theorem spawn_collision_witness :
    3 < 4294967296
    ∧ ((∀ bc tc : Color,
          Snake.hasCollidedWithItself (Snake.construct 3 ⟨10, 10⟩ RIGHT bc tc) = decide (2 ≤ 3))
      ∧ (∀ s : Snake,
          Snake.hasCollidedWithItself (Snake.reset s 3 ⟨10, 10⟩ RIGHT) = decide (2 ≤ 3)))
    ∧ Snake.hasCollidedWithItself scenarioSnake = true :=
  ⟨by decide, spawn_collision 3 ⟨10, 10⟩ RIGHT (by decide), by decide⟩

/-- Counterexample to C17 as stated: constructed or reset with length 1, and
default-constructed (length 0), the entity does not collide with itself. -/
theorem spawn_collision_counterexample :
    Snake.hasCollidedWithItself (Snake.construct 1 ⟨10, 10⟩ RIGHT GREEN DARKGREEN) = false
      ∧ Snake.hasCollidedWithItself (Snake.reset scenarioSnake 1 ⟨10, 10⟩ RIGHT) = false
      ∧ Snake.hasCollidedWithItself Snake.default = false := by
  decide

/-- C18 (amended). Unspooling: for every `N >= 1` (a 32-bit unsigned value),
position `P`, direction `D` among `UP`, `DOWN`, `LEFT`, `RIGHT` with unit step
`v`, and every `k >= 0` for which `P` and `P + k * v` have their coordinates in
the range of `int`, the entity constructed (or reset) with `(N, P, D)` and then
moved `k` times with no turn in between has, for every index `i < N`,
`body[i] == P + (k - i) * v` when `i <= k` and `body[i] == P` when `i > k`;
after `k >= N - 1` moves all `N` segments are pairwise distinct, and for
`k <= N - 1` the number of segments still on `P` is `max(N - k, 1)`. -/
theorem unspooling (N : Nat) (P : Vector2Int) (D : Direction) (k : Nat)
    (h1 : 1 ≤ N) (hN : N < 4294967296)
    (hD : D = UP ∨ D = DOWN ∨ D = LEFT ∨ D = RIGHT)
    (hP : inIntRange P)
    (hPk : inIntRange ⟨P.x + (k : Int) * (specUnitDelta D).x,
      P.y + (k : Int) * (specUnitDelta D).y⟩) :
    (∀ bc tc : Color, ∃ s2, moveTimes k (Snake.construct N P D bc tc) = Except.ok s2
        ∧ s2.body.length = N
        ∧ (∀ i, i < N → s2.body[i]? = some (specUnspooled P (specUnitDelta D) k i))
        ∧ (N - 1 ≤ k → s2.body.Nodup)
        ∧ (k ≤ N - 1 → List.count P s2.body = max (N - k) 1))
      ∧ (∀ s : Snake, ∃ s2, moveTimes k (Snake.reset s N P D) = Except.ok s2
        ∧ s2.body.length = N
        ∧ (∀ i, i < N → s2.body[i]? = some (specUnspooled P (specUnitDelta D) k i))
        ∧ (N - 1 ≤ k → s2.body.Nodup)
        ∧ (k ≤ N - 1 → List.count P s2.body = max (N - k) 1)) := by
  have hmod : N % 4294967296 = N := Nat.mod_eq_of_lt hN
  have hrange := unspool_range P D k hD hP hPk
  obtain ⟨p1, p2, p3, p4⟩ := unspooled_body_props P D N k h1 hD
  constructor
  · intro bc tc
    have h := moveTimes_unspool (Snake.construct N P D bc tc) N P hmod rfl
      (by show List.replicate (N % 4294967296) P = _; rw [hmod]) h1 hN k hrange
    exact ⟨_, h, p1, p2, p3, p4⟩
  · intro s
    have h := moveTimes_unspool (Snake.reset s N P D) N P hmod rfl
      (by show [] ++ List.replicate (N % 4294967296 - 0) P = _
          rw [hmod, List.nil_append, Nat.sub_zero]) h1 hN k hrange
    exact ⟨_, h, p1, p2, p3, p4⟩

/-- Witness of C18 (amended): length 3 at (10,10) heading `RIGHT`, moved once
and moved twice: body [(11,10),(10,10),(10,10)], then
[(12,10),(11,10),(10,10)]. -/
theorem unspooling_witness :
    (1 ≤ 3 ∧ 3 < 4294967296 ∧ inIntRange ⟨10, 10⟩
      ∧ inIntRange ⟨10 + ((2 : Nat) : Int) * (specUnitDelta RIGHT).x,
          10 + ((2 : Nat) : Int) * (specUnitDelta RIGHT).y⟩)
    ∧ ((∀ bc tc : Color, ∃ s2,
          moveTimes 2 (Snake.construct 3 ⟨10, 10⟩ RIGHT bc tc) = Except.ok s2
          ∧ s2.body.length = 3
          ∧ (∀ i, i < 3 → s2.body[i]? = some (specUnspooled ⟨10, 10⟩ (specUnitDelta RIGHT) 2 i))
          ∧ (3 - 1 ≤ 2 → s2.body.Nodup)
          ∧ (2 ≤ 3 - 1 → List.count ⟨10, 10⟩ s2.body = max (3 - 2) 1))
        ∧ (∀ s : Snake, ∃ s2, moveTimes 2 (Snake.reset s 3 ⟨10, 10⟩ RIGHT) = Except.ok s2
          ∧ s2.body.length = 3
          ∧ (∀ i, i < 3 → s2.body[i]? = some (specUnspooled ⟨10, 10⟩ (specUnitDelta RIGHT) 2 i))
          ∧ (3 - 1 ≤ 2 → s2.body.Nodup)
          ∧ (2 ≤ 3 - 1 → List.count ⟨10, 10⟩ s2.body = max (3 - 2) 1)))
    ∧ moveTimes 1 scenarioSnake = Except.ok scenarioMoved
    ∧ moveTimes 2 scenarioSnake
        = Except.ok ⟨GREEN, DARKGREEN, 3, ⟨12, 10⟩, RIGHT, [⟨12, 10⟩, ⟨11, 10⟩, ⟨10, 10⟩]⟩ :=
  ⟨by decide,
   unspooling 3 ⟨10, 10⟩ RIGHT 2 (by decide) (by decide) (by decide) (by decide) (by decide),
   by decide, by decide⟩

/-- Counterexample to C18 as stated: `N = 1`, `P = (2147483647,0)`,
`D = RIGHT`, `k = 1`. The claim gives `body[0] == P + (1 - 0) * v`, which is
(2147483648,0) and no `int`; after one move of the constructed entity
`body[0]` is (-2147483648,0). -/
theorem unspooling_overflow_counterexample :
    1 ≤ 1
      ∧ moveTimes 1 (Snake.construct 1 ⟨2147483647, 0⟩ RIGHT GREEN DARKGREEN)
          = Except.ok ⟨GREEN, DARKGREEN, 1, ⟨-2147483648, 0⟩, RIGHT, [⟨-2147483648, 0⟩]⟩
      ∧ specUnspooled ⟨2147483647, 0⟩ (specUnitDelta RIGHT) 1 0 = ⟨2147483648, 0⟩
      ∧ (⟨-2147483648, 0⟩ : Vector2Int) ≠ ⟨2147483648, 0⟩ := by
  decide

/-- C19, the code at the failing input: the default-constructed entity has
`length == 0` and an empty body; the loop of `move()` starts at the unsigned
value `length - 1 == 4294967295` and indexes the empty body out of bounds, so
`move()` has undefined behaviour. The same holds after the five-argument
constructor or `reset` was given the length 0. -/
theorem move_default_out_of_bounds :
    Snake.default.length = 0 ∧ Snake.default.body.length = 0
      ∧ (4294967295 + Snake.default.length) % 4294967296 = 4294967295
      ∧ Snake.default.body[4294967295]? = none
      ∧ Snake.moveShift 4294967295 Snake.default.body = Except.error Fault.undefined
      ∧ Snake.move Snake.default = Except.error Fault.undefined
      ∧ Snake.move (Snake.construct 0 ⟨5, 5⟩ UP GREEN DARKGREEN) = Except.error Fault.undefined
      ∧ Snake.move (Snake.reset scenarioSnake 0 ⟨5, 5⟩ UP) = Except.error Fault.undefined := by
  decide

/-- C20. Effect of `grow` on self-collision: for every entity with
`length >= 1` and `body.size() == length`, `grow()` completes and
`hasCollidedWithItself()` after it equals `hasCollidedWithItself()` before it
OR `length == 1` before it; so for `length >= 2` the result is unchanged, and a
one-segment entity goes from false to true. -/
theorem grow_collision (s : Snake) (h1 : 1 ≤ s.length) (hb : s.body.length = s.length) :
    ∃ s2, Snake.grow s = Except.ok s2
      ∧ Snake.hasCollidedWithItself s2
          = (Snake.hasCollidedWithItself s || decide (s.length = 1))
      ∧ (2 ≤ s.length → Snake.hasCollidedWithItself s2 = Snake.hasCollidedWithItself s)
      ∧ (s.length = 1 → Snake.hasCollidedWithItself s = false
          ∧ Snake.hasCollidedWithItself s2 = true) := by
  have hne : s.body ≠ [] := by
    intro h; rw [h] at hb; simp at hb; omega
  have hl : s.body.getLast? = some (s.body.getLast hne) := List.getLast?_eq_getLast _ hne
  have hlast : s.body[s.body.length - 1]? = some (s.body.getLast hne) := by
    rw [← List.getLast?_eq_getElem?]; exact hl
  have hhead : (s.body ++ [s.body.getLast hne]).head? = s.body.head? :=
    List.head?_append_of_ne_nil _ hne
  have hafter : Snake.selfScan (s.body ++ [s.body.getLast hne]) 0 (s.body ++ [s.body.getLast hne])
      = (Snake.selfScan s.body 0 s.body || decide (s.length = 1)) := by
    rw [Bool.eq_iff_iff, Bool.or_eq_true, decide_eq_true_eq, selfScan_iff, selfScan_iff, hhead]
    constructor
    · rintro ⟨j, hj, hne0, he⟩
      rw [List.length_append, List.length_singleton] at hj
      by_cases hjl : j < s.body.length
      · left
        rw [List.getElem?_append_left hjl] at he
        exact ⟨j, hjl, hne0, he⟩
      · have hjeq : j = s.body.length := by omega
        subst hjeq
        rw [List.getElem?_append_right (Nat.le_refl _), Nat.sub_self] at he
        by_cases hone : s.length = 1
        · right; exact hone
        · left
          refine ⟨s.body.length - 1, by omega, by omega, ?_⟩
          rw [hlast]
          exact he
    · rintro (⟨j, hj, hne0, he⟩ | hone)
      · refine ⟨j, by rw [List.length_append]; omega, hne0, ?_⟩
        rw [List.getElem?_append_left hj]
        exact he
      · refine ⟨1, by rw [List.length_append, List.length_singleton]; omega, by omega, ?_⟩
        have hlen1 : s.body.length = 1 := by omega
        rw [List.getElem?_append_right (by omega), hlen1, Nat.sub_self]
        have h0 : s.body.head? = s.body[0]? := by cases s.body <;> simp
        rw [h0]
        rw [hlen1] at hlast
        rw [hlast]
        rfl
  refine ⟨_, grow_eq s _ hl, hafter, ?_, ?_⟩
  · intro h2
    show Snake.selfScan (s.body ++ [s.body.getLast hne]) 0 (s.body ++ [s.body.getLast hne])
      = Snake.selfScan s.body 0 s.body
    rw [hafter]
    have : ¬ s.length = 1 := by omega
    simp [this]
  · intro hone
    have hfalse : Snake.selfScan s.body 0 s.body = false := by
      rw [Bool.eq_false_iff]
      intro ht
      rw [selfScan_iff] at ht
      obtain ⟨j, hj, hne0, _⟩ := ht
      omega
    refine ⟨hfalse, ?_⟩
    show Snake.selfScan (s.body ++ [s.body.getLast hne]) 0 (s.body ++ [s.body.getLast hne]) = true
    rw [hafter, hfalse]
    simp [hone]

/-- Witness of C20: a one-segment entity goes from false to true, and the
entity of scenario 3 (length 3, no collision) stays at false. -/
theorem grow_collision_witness :
    (1 ≤ scenarioMoved.length ∧ scenarioMoved.body.length = scenarioMoved.length)
    ∧ (∃ s2, Snake.grow scenarioMoved = Except.ok s2
        ∧ Snake.hasCollidedWithItself s2
            = (Snake.hasCollidedWithItself scenarioMoved || decide (scenarioMoved.length = 1))
        ∧ (2 ≤ scenarioMoved.length →
            Snake.hasCollidedWithItself s2 = Snake.hasCollidedWithItself scenarioMoved)
        ∧ (scenarioMoved.length = 1 → Snake.hasCollidedWithItself scenarioMoved = false
            ∧ Snake.hasCollidedWithItself s2 = true))
    ∧ Snake.hasCollidedWithItself (Snake.construct 1 ⟨4, 4⟩ UP GREEN DARKGREEN) = false
    ∧ Snake.grow (Snake.construct 1 ⟨4, 4⟩ UP GREEN DARKGREEN)
        = Except.ok ⟨GREEN, DARKGREEN, 2, ⟨4, 4⟩, UP, [⟨4, 4⟩, ⟨4, 4⟩]⟩
    ∧ Snake.hasCollidedWithItself ⟨GREEN, DARKGREEN, 2, ⟨4, 4⟩, UP, [⟨4, 4⟩, ⟨4, 4⟩]⟩ = true :=
  ⟨by decide, grow_collision scenarioMoved (by decide) (by decide), by decide, by decide,
   by decide⟩

end SnakeSpec
